import Mathlib

/-!
Verification of the pydynox value codec and operation executors.

This file gives a shallow embedding of the Rust source of the pydynox
library (src/conversions.rs, src/batch_operations/write.rs,
src/transaction_operations.rs, src/basic_operations/update_op.rs,
src/errors.rs) and proves properties of that embedding.

Modelling conventions:
  - Python values are the inductive type NV below; machine integers are
    unbounded Int with the i64 range check made explicit where the Rust
    code parses an i64.
  - Python floats are abstract: the codec is parameterized by a type of
    floats together with its canonical text form (Python str) and the
    Rust f64 text parser.  Lawfulness of that pair (parsing the canonical
    text recovers the float, and the canonical text contains a decimal
    point or exponent marker) is an explicit hypothesis where needed.
  - Python dicts and Rust HashMaps are association lists; entry order is
    carried through both directions of the codec.
  - Fallible Rust/PyO3 code returns Except; the backend (network) is an
    oracle passed in as a function, and executors record the list of
    backend calls they make so that claims about "no network call" and
    chunk contents are statable.
-/

namespace Pydynox

/-! ## Decimal text for integers

Python str(int) produces the usual decimal representation; the Rust
decoder re-parses it with str::parse::<i64>.  decAux is decimal printing
with an explicit fuel so that it is structurally recursive (the fuel is
always at least the printed number, and the recursion depth is the digit
count). -/

/-- Character of a single decimal digit. -/
def digitChar (d : Nat) : Char := Char.ofNat (48 + d)

/-- Big-endian decimal digits of n, with fuel; empty for n = 0. -/
def decAux : Nat → Nat → List Char
  | 0, _ => []
  | fuel + 1, n => if n = 0 then [] else decAux fuel (n / 10) ++ [digitChar (n % 10)]

/-- Decimal text of a natural number, as produced by Python str(). -/
def natDecText (n : Nat) : String := if n = 0 then "0" else String.mk (decAux n n)

/-- Decimal text of an integer, as produced by Python str(): a leading
minus sign for negative values, plain digits otherwise. -/
def intDecText (n : Int) : String :=
  if n < 0 then String.mk ('-' :: decAux n.natAbs n.natAbs) else natDecText n.natAbs

/-- Test for an ASCII decimal digit character. -/
def isDigitChar (c : Char) : Bool := 48 ≤ c.toNat && c.toNat ≤ 57

/-- Numeric value of an ASCII digit character. -/
def digitVal (c : Char) : Nat := c.toNat - 48

/-- Accumulating decimal parser over characters; fails on any non-digit.
Models the digit loop of Rust str::parse. -/
def parseNatDigits : List Char → Nat → Option Nat
  | [], acc => some acc
  | c :: cs, acc => if isDigitChar c then parseNatDigits cs (acc * 10 + digitVal c) else none

/-- Unsigned body of the i64 parser, with the positive overflow bound. -/
def parseI64Pos (cs : List Char) : Option Int :=
  (parseNatDigits cs 0).bind fun m => if m ≤ 2 ^ 63 - 1 then some ((m : Int)) else none

/-- Negated body of the i64 parser, with the negative overflow bound. -/
def parseI64Neg (cs : List Char) : Option Int :=
  (parseNatDigits cs 0).bind fun m => if m ≤ 2 ^ 63 then some (-(m : Int)) else none

/-- Model of Rust str::parse::<i64> on a character list: optional sign,
at least one digit, and an overflow check at the i64 bounds. -/
def parseI64Chars : List Char → Option Int
  | [] => none
  | c :: rest =>
    if c = '-' then (if rest.isEmpty then none else parseI64Neg rest)
    else if c = '+' then (if rest.isEmpty then none else parseI64Pos rest)
    else parseI64Pos (c :: rest)

/-- Model of Rust str::parse::<i64>. -/
def parseI64Text (s : String) : Option Int := parseI64Chars s.data

/-- Decimal-point / exponent scan of the decoder:
n.contains('.') || n.contains('e') || n.contains('E'). -/
def hasMarker (s : String) : Bool := s.data.any fun c => c == '.' || c == 'e' || c == 'E'

/-! ## Value codec data model

NV models a native Python value of the types the codec supports
(src/conversions.rs handles str, bool, int, float, None, bytes, set,
frozenset, list, dict; set and frozenset are both NV.set).  AV models
aws_sdk_dynamodb::types::AttributeValue; AV.Unknown stands for the SDK's
non-exhaustive catch-all variant.  The type parameter is the abstract
type of Python floats, always used together with its canonical text form
(Python str) and the Rust f64 parser. -/

inductive NV (flt : Type) where
  | pynone : NV flt
  | str (s : String) : NV flt
  | bool (b : Bool) : NV flt
  | int (n : Int) : NV flt
  | float (f : flt) : NV flt
  | bytes (bs : List Nat) : NV flt
  | set (elems : List (NV flt)) : NV flt
  | list (xs : List (NV flt)) : NV flt
  | map (kvs : List (String × NV flt)) : NV flt

inductive AV where
  | S (s : String)
  | N (s : String)
  | Bool (b : Bool)
  | Null (b : Bool)
  | B (bs : List Nat)
  | L (xs : List AV)
  | M (kvs : List (String × AV))
  | Ss (ss : List String)
  | Ns (ns : List String)
  | Bs (bs : List (List Nat))
  | Unknown

/-- Kind of Python exception raised (pyo3 exception classes and the
pydynox exception classes created in src/errors.rs). -/
inductive ExcKind where
  | typeError
  | valueError
  | runtimeError
  | pydynoxError
  | resourceNotFound
  | resourceInUse
  | validationExc
  | conditionalCheckFailed
  | transactionCanceled
  | throughputExceeded
  | accessDenied
  | credentials
  | serialization
  | connection
  | encryption
  | s3Exc
  deriving DecidableEq

/-- Python exception: a class and a message. -/
structure PyErr where
  kind : ExcKind
  msg : String

variable {flt : Type}

/-- Python str() of a bool. -/
def pyBoolText (b : Bool) : String := if b then "True" else "False"

/-- Test modelling obj.cast::<PyString>().is_ok(). -/
def nvIsStr : NV flt → Bool
  | .str _ => true
  | _ => false

/-- Test modelling item.cast::<PyInt>().is_ok() || item.cast::<PyFloat>().is_ok().
True for bool as well: PyBool is a subclass of PyInt, so the PyInt cast
succeeds on a Python bool. -/
def castsToNumber : NV flt → Bool
  | .int _ => true
  | .float _ => true
  | .bool _ => true
  | _ => false

/-- Test modelling item.cast::<PyBytes>().is_ok(). -/
def nvIsBytes : NV flt → Bool
  | .bytes _ => true
  | _ => false

/-- Python type name, as printed in the unsupported-type error messages. -/
def nvTypeName : NV flt → String
  | .pynone => "NoneType"
  | .str _ => "str"
  | .bool _ => "bool"
  | .int _ => "int"
  | .float _ => "float"
  | .bytes _ => "bytes"
  | .set _ => "set"
  | .list _ => "list"
  | .map _ => "dict"

/-- String payload of a string value. -/
def nvStrVal : NV flt → Option String
  | .str s => some s
  | _ => none

/-- Python str() of a number-castable value (int, float, or bool). -/
def nvNumText (fstr : flt → String) : NV flt → Option String
  | .int n => some (intDecText n)
  | .float f => some (fstr f)
  | .bool b => some (pyBoolText b)
  | _ => none

/-- Bytes payload of a bytes value. -/
def nvBytesVal : NV flt → Option (List Nat)
  | .bytes bs => some bs
  | _ => none

/-- Element-wise extraction for set conversion: each item must satisfy
the extractor, otherwise the given error is raised (first failure wins,
as in the collect::<PyResult<Vec<_>>> of the source). -/
def mapOrErr {β : Type} (f : NV flt → Option β) (e : PyErr) : List (NV flt) → Except PyErr (List β)
  | [] => .ok []
  | x :: xs =>
    match f x with
    | some y => (mapOrErr f e xs).map (y :: ·)
    | none => .error e

/-- Model of convert_set_direct (src/conversions.rs:76-137): dispatch on
the first element's type, then require every element to pass the same
cast; empty sets are a ValueError. -/
def convert_set_direct (fstr : flt → String) (items : List (NV flt)) : Except PyErr AV :=
  match items with
  | [] => .error ⟨.valueError, "DynamoDB does not support empty sets"⟩
  | first :: _ =>
    if nvIsStr first then
      (mapOrErr nvStrVal ⟨.typeError, "String set must contain only strings"⟩ items).map .Ss
    else if castsToNumber first then
      (mapOrErr (nvNumText fstr) ⟨.typeError, "Number set must contain only numbers"⟩ items).map .Ns
    else if nvIsBytes first then
      (mapOrErr nvBytesVal ⟨.typeError, "Binary set must contain only bytes"⟩ items).map .Bs
    else
      .error ⟨.typeError,
        "Unsupported set element type: " ++ nvTypeName first ++
          ". Sets can only contain strings, numbers, or bytes"⟩

mutual
/-- Model of py_to_attribute_value_direct (src/conversions.rs:34-73).
The source is an ordered type-test cascade (None, str, bool, int/float,
bytes, set, frozenset, list, dict); on the disjoint constructors of NV
it is this match.  The bool arm comes before the int arm in the source,
so NV.bool encodes to AV.Bool, never AV.N. -/
def py_to_attribute_value_direct (fstr : flt → String) : NV flt → Except PyErr AV
  | .pynone => .ok (.Null true)
  | .str s => .ok (.S s)
  | .bool b => .ok (.Bool b)
  | .int n => .ok (.N (intDecText n))
  | .float f => .ok (.N (fstr f))
  | .bytes bs => .ok (.B bs)
  | .set elems => convert_set_direct fstr elems
  | .list xs => (pyListToAv fstr xs).map .L
  | .map kvs => (pyKvsToAv fstr kvs).map .M

/-- Element-wise encoding of a Python list. -/
def pyListToAv (fstr : flt → String) : List (NV flt) → Except PyErr (List AV)
  | [] => .ok []
  | x :: xs => do .ok ((← py_to_attribute_value_direct fstr x) :: (← pyListToAv fstr xs))

/-- Entry-wise encoding of a Python dict (py_dict_to_attribute_values,
src/conversions.rs:142-155, with the dict as an association list). -/
def pyKvsToAv (fstr : flt → String) : List (String × NV flt) → Except PyErr (List (String × AV))
  | [] => .ok []
  | (k, v) :: kvs => do .ok ((k, ← py_to_attribute_value_direct fstr v) :: (← pyKvsToAv fstr kvs))
end

/-- Number-text decoding shared by the N arm and NumberSet elements
(src/conversions.rs:181-199 and 231-251): float when the text contains
a marker, i64 otherwise, ValueError on parse failure. -/
def decodeNumText (fparse : String → Option flt) (s : String) : Except PyErr (NV flt) :=
  if hasMarker s then
    match fparse s with
    | some f => .ok (.float f)
    | none => .error ⟨.valueError, "Invalid number: " ++ s⟩
  else
    match parseI64Text s with
    | some n => .ok (.int n)
    | none => .error ⟨.valueError, "Invalid number: " ++ s⟩

/-- Element-wise decoding of a NumberSet. -/
def decodeNsElems (fparse : String → Option flt) : List String → Except PyErr (List (NV flt))
  | [] => .ok []
  | s :: ss => do .ok ((← decodeNumText fparse s) :: (← decodeNsElems fparse ss))

mutual
/-- Model of attribute_value_to_py_direct (src/conversions.rs:178-266).
Set variants decode to NV.set in the wire order (the source adds
elements to a fresh Python set in iteration order). -/
def attribute_value_to_py_direct (fparse : String → Option flt) : AV → Except PyErr (NV flt)
  | .S s => .ok (.str s)
  | .N n => decodeNumText fparse n
  | .Bool b => .ok (.bool b)
  | .Null _ => .ok .pynone
  | .B bs => .ok (.bytes bs)
  | .L l => (avListToPy fparse l).map .list
  | .M m => (avKvsToPy fparse m).map .map
  | .Ss ss => .ok (.set (ss.map .str))
  | .Ns ns => (decodeNsElems fparse ns).map .set
  | .Bs bs => .ok (.set (bs.map .bytes))
  | .Unknown => .error ⟨.valueError, "Unknown DynamoDB AttributeValue type"⟩

/-- Element-wise decoding of a List attribute. -/
def avListToPy (fparse : String → Option flt) : List AV → Except PyErr (List (NV flt))
  | [] => .ok []
  | x :: xs => do .ok ((← attribute_value_to_py_direct fparse x) :: (← avListToPy fparse xs))

/-- Entry-wise decoding of a Map attribute (attribute_values_to_py_dict,
src/conversions.rs:160-172, with the item as an association list). -/
def avKvsToPy (fparse : String → Option flt) : List (String × AV) → Except PyErr (List (String × NV flt))
  | [] => .ok []
  | (k, v) :: kvs => do .ok ((k, ← attribute_value_to_py_direct fparse v) :: (← avKvsToPy fparse kvs))
end

/-- Lawfulness of the abstract float codec pair: Python str() of a float
re-parses to the same float (documented round-trip behaviour of repr for
finite doubles), and the canonical text always contains a decimal point
or exponent marker. -/
def FloatCodecLawful (fstr : flt → String) (fparse : String → Option flt) : Prop :=
  (∀ f, fparse (fstr f) = some f) ∧ (∀ f, hasMarker (fstr f) = true)

/-- Set element that round-trips through a NumberSet: an int within the
i64 range or a float.  Bools are excluded: they are not str/number/bytes
in the sense of the spec. -/
def numElemGood : NV flt → Bool
  | .int n => decide (-(2 ^ 63) ≤ n ∧ n ≤ 2 ^ 63 - 1)
  | .float _ => true
  | _ => false

mutual
/-- Supported, round-trippable values: every set is non-empty and
homogeneous (all strings, all in-range numbers, or all bytes), and every
integer fits in an i64. -/
def goodNV : NV flt → Bool
  | .int n => decide (-(2 ^ 63) ≤ n ∧ n ≤ 2 ^ 63 - 1)
  | .set elems =>
      !elems.isEmpty &&
        (elems.all nvIsStr || elems.all numElemGood || elems.all nvIsBytes)
  | .list xs => goodList xs
  | .map kvs => goodKvs kvs
  | _ => true

/-- Conjunction of goodNV over a list. -/
def goodList : List (NV flt) → Bool
  | [] => true
  | x :: xs => goodNV x && goodList xs

/-- Conjunction of goodNV over dict values. -/
def goodKvs : List (String × NV flt) → Bool
  | [] => true
  | (_, v) :: kvs => goodNV v && goodKvs kvs
end



/-! ## Batch write executor (src/batch_operations/write.rs)

The backend is an oracle indexed by the global call count; a response is
either a transport/service error or the list of unprocessed write
requests reported for the table (the source's three nesting levels --
unprocessed_items absent, table key absent, empty vec -- all behave as
"nothing unprocessed" and collapse to the empty list).  chunkLoopAux is
the retry loop of one chunk; its fuel is BATCH_MAX_RETRIES - retries, so
the loop guard retries < BATCH_MAX_RETRIES is fuel > 0. -/

/-- Maximum items per batch write request (DynamoDB limit). -/
def BATCH_WRITE_MAX_ITEMS : Nat := 25

/-- Maximum retry attempts for unprocessed items. -/
def BATCH_MAX_RETRIES : Nat := 5

/-- Message of the retry-exhaustion failure raised by batch_write. -/
def retryFailureMsg (count retries : Nat) : String :=
  "Failed to process " ++ toString count ++ " items after " ++ toString retries ++ " retries"

/-- Rust slice::chunks with explicit fuel (the initial list length). -/
def chunksAux {α : Type} (n : Nat) : Nat → List α → List (List α)
  | 0, _ => []
  | _, [] => []
  | fuel + 1, l => l.take n :: chunksAux n fuel (l.drop n)

/-- Split a list into consecutive chunks of at most n elements. -/
def chunksOf {α : Type} (n : Nat) (l : List α) : List (List α) := chunksAux n l.length l

/-- Error raised by the batch write path: a mapped backend error, or the
PyRuntimeError raised after exhausting retries. -/
inductive BatchErr (ε : Type) where
  | sdk (e : ε)
  | runtime (msg : String)

/-- Observable outcome of the retry loop for one chunk: the backend
calls made (each the exact pending list submitted), the backoff delays
slept in milliseconds, the result, the pending list at loop exit, and
the next global call index. -/
structure ChunkLog (α ε : Type) where
  calls : List (List α)
  delays : List Nat
  result : Except (BatchErr ε) Unit
  finalPending : List α
  nextIdx : Nat

/-- Retry loop for one chunk (src/batch_operations/write.rs:93-136).
Fuel counts the remaining allowed attempts (BATCH_MAX_RETRIES - retries);
retries is the attempt counter used in the backoff exponent.  On a
reported non-empty unprocessed subset the pending set is replaced by
exactly that subset, the counter is incremented, and the loop sleeps
50 * 2 ^ retries milliseconds before resubmitting. -/
def chunkLoopAux {α ε : Type} (oracle : Nat → Except ε (List α)) :
    Nat → Nat → List α → Nat → ChunkLog α ε
  | 0, k, pending, _ =>
    ⟨[], [],
      if pending.isEmpty then .ok ()
      else .error (.runtime (retryFailureMsg pending.length BATCH_MAX_RETRIES)),
      pending, k⟩
  | fuel + 1, k, pending, retries =>
    if pending.isEmpty then ⟨[], [], .ok (), pending, k⟩
    else
      match oracle k with
      | .error e => ⟨[pending], [], .error (.sdk e), pending, k + 1⟩
      | .ok unprocessed =>
        if unprocessed.isEmpty then ⟨[pending], [], .ok (), [], k + 1⟩
        else
          let rest := chunkLoopAux oracle fuel (k + 1) unprocessed (retries + 1)
          ⟨pending :: rest.calls, 50 * 2 ^ (retries + 1) :: rest.delays,
            rest.result, rest.finalPending, rest.nextIdx⟩

/-- Process one chunk starting from attempt counter 0 with the full
retry budget. -/
def processChunk {α ε : Type} (oracle : Nat → Except ε (List α)) (k : Nat)
    (chunk : List α) : ChunkLog α ε :=
  chunkLoopAux oracle BATCH_MAX_RETRIES k chunk 0

/-- Observable outcome of a whole batch_write call. -/
structure BatchLog (α ε : Type) where
  calls : List (List α)
  delays : List Nat
  result : Except (BatchErr ε) Unit
  leftover : List α

/-- Sequential processing of the chunks; the first failing chunk aborts
the batch (src/batch_operations/write.rs:93-137). -/
def runChunks {α ε : Type} (oracle : Nat → Except ε (List α)) :
    Nat → List (List α) → BatchLog α ε
  | _, [] => ⟨[], [], .ok (), []⟩
  | k, c :: cs =>
    let l := processChunk oracle k c
    match l.result with
    | .error e => ⟨l.calls, l.delays, .error e, l.finalPending⟩
    | .ok _ =>
      let rest := runChunks oracle l.nextIdx cs
      ⟨l.calls ++ rest.calls, l.delays ++ rest.delays, rest.result, rest.leftover⟩

/-- Model of batch_write (src/batch_operations/write.rs:38-140) after
the put and delete requests have been converted: merge the two request
lists in order, return immediately on an empty merged list, otherwise
split into chunks of at most 25 and process each chunk with the retry
loop. -/
def batch_write {α ε : Type} (oracle : Nat → Except ε (List α))
    (put_requests delete_requests : List α) : BatchLog α ε :=
  let all_requests := put_requests ++ delete_requests
  if all_requests.isEmpty then ⟨[], [], .ok (), []⟩
  else runChunks oracle 0 (chunksOf BATCH_WRITE_MAX_ITEMS all_requests)

/-! ## Transaction executor (src/transaction_operations.rs) -/

/-- Maximum items per transaction (DynamoDB limit). -/
def TRANSACTION_MAX_ITEMS : Nat := 100

/-- Message of the local size-limit validation failure. -/
def txSizeMsg (got : Nat) : String :=
  "Transaction exceeds maximum of " ++ toString TRANSACTION_MAX_ITEMS ++
    " items (got " ++ toString got ++ ")"

/-- Operation descriptor for transact_write, as parsed from the
caller's operation dict: the type tag dispatches, and the option fields
model keys the dict may lack.  unknown carries an unrecognized type
tag. -/
inductive TxOp (flt : Type) where
  | put (table : String) (item : List (String × NV flt)) (condition : Option String)
      (names : List (String × String)) (values : Option (List (String × NV flt)))
  | delete (table : String) (key : List (String × NV flt)) (condition : Option String)
      (names : List (String × String)) (values : Option (List (String × NV flt)))
  | update (table : String) (key : List (String × NV flt)) (updateExpression : Option String)
      (condition : Option String) (names : List (String × String))
      (values : Option (List (String × NV flt)))
  | conditionCheck (table : String) (key : List (String × NV flt))
      (condition : Option String) (names : List (String × String))
      (values : Option (List (String × NV flt)))
  | unknown (opType : String) (table : String)

/-- Built TransactWriteItem sub-request (the aws_sdk Put / Delete /
Update / ConditionCheck structures, with items and values encoded). -/
inductive TxWriteItem where
  | put (table : String) (item : List (String × AV)) (condition : Option String)
      (names : List (String × String)) (values : List (String × AV))
  | delete (table : String) (key : List (String × AV)) (condition : Option String)
      (names : List (String × String)) (values : List (String × AV))
  | update (table : String) (key : List (String × AV)) (updateExpression : String)
      (condition : Option String) (names : List (String × String))
      (values : List (String × AV))
  | conditionCheck (table : String) (key : List (String × AV)) (condition : String)
      (names : List (String × String)) (values : List (String × AV))

/-- Encode an optional caller value-placeholder dict. -/
def encodeOptValues {flt : Type} (fstr : flt → String)
    (values : Option (List (String × NV flt))) : Except PyErr (List (String × AV)) :=
  match values with
  | some v => pyKvsToAv fstr v
  | none => .ok []

/-- Model of build_transact_write_item and its four helpers
(src/transaction_operations.rs:87-313): update requires an
update_expression, condition_check requires a condition_expression, and
an unknown type tag is a ValueError. -/
def build_transact_write_item {flt : Type} (fstr : flt → String) :
    TxOp flt → Except PyErr TxWriteItem
  | .put table item condition names values => do
    let dynamoItem ← pyKvsToAv fstr item
    let dynamoValues ← encodeOptValues fstr values
    .ok (.put table dynamoItem condition names dynamoValues)
  | .delete table key condition names values => do
    let dynamoKey ← pyKvsToAv fstr key
    let dynamoValues ← encodeOptValues fstr values
    .ok (.delete table dynamoKey condition names dynamoValues)
  | .update table key updateExpression condition names values => do
    let dynamoKey ← pyKvsToAv fstr key
    match updateExpression with
    | none => .error ⟨.valueError, "Update operation missing 'update_expression' field"⟩
    | some expr => do
      let dynamoValues ← encodeOptValues fstr values
      .ok (.update table dynamoKey expr condition names dynamoValues)
  | .conditionCheck table key condition names values => do
    let dynamoKey ← pyKvsToAv fstr key
    match condition with
    | none => .error ⟨.valueError, "ConditionCheck operation missing 'condition_expression' field"⟩
    | some expr => do
      let dynamoValues ← encodeOptValues fstr values
      .ok (.conditionCheck table dynamoKey expr names dynamoValues)
  | .unknown opType _ =>
    .error ⟨.typeError,
      "Unknown operation type: '" ++ opType ++
        "'. Use 'put', 'delete', 'update', or 'condition_check'"⟩

/-- Build every sub-request, failing on the first bad one. -/
def buildAll {τ σ : Type} (f : τ → Except PyErr σ) : List τ → Except PyErr (List σ)
  | [] => .ok []
  | x :: xs => do .ok ((← f x) :: (← buildAll f xs))

/-- Observable outcome of an executor call: backend calls made (in
order), and the result. -/
structure TxLog (ι ρ : Type) where
  backendCalls : List ι
  result : Except PyErr ρ

/-- Model of transact_write (src/transaction_operations.rs:44-84): empty
list is a no-op, a list longer than 100 fails locally before any
building or network call, otherwise all sub-requests are built and one
backend call is made. -/
def transact_write {flt : Type} (fstr : flt → String)
    (backend : List TxWriteItem → Except PyErr Unit)
    (operations : List (TxOp flt)) : TxLog (List TxWriteItem) Unit :=
  if operations.isEmpty then ⟨[], .ok ()⟩
  else if TRANSACTION_MAX_ITEMS < operations.length then
    ⟨[], .error ⟨.valueError, txSizeMsg operations.length⟩⟩
  else
    match buildAll (build_transact_write_item fstr) operations with
    | .error e => ⟨[], .error e⟩
    | .ok items => ⟨[items], backend items⟩

/-- Get descriptor for transact_get. -/
inductive TxGetOp (flt : Type) where
  | get (table : String) (key : List (String × NV flt)) (projection : Option String)
      (names : List (String × String))

/-- Built TransactGetItem sub-request. -/
inductive TxGetItem where
  | get (table : String) (key : List (String × AV)) (projection : Option String)
      (names : List (String × String))

/-- Model of build_transact_get_item (src/transaction_operations.rs:393-431). -/
def build_transact_get_item {flt : Type} (fstr : flt → String) :
    TxGetOp flt → Except PyErr TxGetItem
  | .get table key projection names =>
    (pyKvsToAv fstr key).map fun k => .get table k projection names

/-- Decode the backend's per-request responses in order: an absent item
stays an explicit none at its index, a present item is decoded
(src/transaction_operations.rs:374-386). -/
def decodeResponses {flt : Type} (fparse : String → Option flt) :
    List (Option (List (String × AV))) → Except PyErr (List (Option (List (String × NV flt))))
  | [] => .ok []
  | none :: rest => (decodeResponses fparse rest).map (none :: ·)
  | some item :: rest => do
    let d ← avKvsToPy fparse item
    let ds ← decodeResponses fparse rest
    .ok (some d :: ds)

/-- Model of transact_get (src/transaction_operations.rs:336-390).  The
backend returns, per sub-request, either the item or an absence marker
(output.responses with absent embedded items). -/
def transact_get {flt : Type} (fstr : flt → String) (fparse : String → Option flt)
    (backend : List TxGetItem → Except PyErr (List (Option (List (String × AV)))))
    (gets : List (TxGetOp flt)) :
    TxLog (List TxGetItem) (List (Option (List (String × NV flt)))) :=
  if gets.isEmpty then ⟨[], .ok []⟩
  else if TRANSACTION_MAX_ITEMS < gets.length then
    ⟨[], .error ⟨.valueError, txSizeMsg gets.length⟩⟩
  else
    match buildAll (build_transact_get_item fstr) gets with
    | .error e => ⟨[], .error e⟩
    | .ok items =>
      match backend items with
      | .error e => ⟨[items], .error e⟩
      | .ok responses => ⟨[items], decodeResponses fparse responses⟩

/-! ## Update operation (src/basic_operations/update_op.rs) -/

/-- DynamoDB ReturnValue modes. -/
inductive ReturnValue where
  | noneRV
  | allOld
  | updatedOld
  | allNew
  | updatedNew

/-- Model of parse_return_values (src/basic_operations/update_op.rs:33-45). -/
def parse_return_values (value : String) : Except PyErr ReturnValue :=
  if value = "NONE" then .ok .noneRV
  else if value = "ALL_OLD" then .ok .allOld
  else if value = "UPDATED_OLD" then .ok .updatedOld
  else if value = "ALL_NEW" then .ok .allNew
  else if value = "UPDATED_NEW" then .ok .updatedNew
  else .error ⟨.valueError,
    "Invalid return_values: '" ++ value ++
      "'. Must be one of: NONE, ALL_OLD, UPDATED_OLD, ALL_NEW, UPDATED_NEW"⟩

/-- Prepared update_item request.  The two placeholder maps are modelled
as lookup functions (the Rust HashMaps), so insertion order is
irrelevant and overwrite semantics are exact. -/
structure PreparedUpdateItem where
  table : String
  key : List (String × AV)
  update_expression : String
  condition_expression : Option String
  expression_attribute_names : String → Option String
  expression_attribute_values : String → Option AV
  return_values_on_condition_check_failure : Bool
  return_values : Option ReturnValue

/-- Lookup function of an association list (first match wins, as in a
HashMap built from unique keys). -/
def assocFn {β : Type} (l : List (String × β)) : String → Option β := fun k => l.lookup k

/-- Insert every entry into a map function, later inserts overwriting
(HashMap::insert in a loop). -/
def insertAllFn {β : Type} (base : String → Option β) (entries : List (String × β)) :
    String → Option β :=
  entries.foldl (fun m p => fun q => if q = p.1 then some p.2 else m q) base

/-- Accumulator pass of build_set_expression: positional placeholder
pairs from index i upward, with each value encoded. -/
def buildSetAux {flt : Type} (fstr : flt → String) :
    Nat → List (String × NV flt) →
      Except PyErr (List String × List (String × String) × List (String × AV))
  | _, [] => .ok ([], [], [])
  | i, (field, v) :: rest => do
    let av ← py_to_attribute_value_direct fstr v
    let (parts, names, values) ← buildSetAux fstr (i + 1) rest
    .ok (("#f" ++ toString i ++ " = :v" ++ toString i) :: parts,
      ("#f" ++ toString i, field) :: names,
      ((":v" ++ toString i), av) :: values)

/-- Model of build_set_expression (src/basic_operations/update_op.rs:
300-326): a single SET clause joining "#fi = :vi" pairs in dict order,
with the two generated placeholder maps. -/
def build_set_expression {flt : Type} (fstr : flt → String)
    (updates : List (String × NV flt)) :
    Except PyErr (String × List (String × String) × List (String × AV)) :=
  (buildSetAux fstr 0 updates).map fun r =>
    ("SET " ++ String.intercalate ", " r.1, r.2.1, r.2.2)

/-- Model of prepare_update_item (src/basic_operations/update_op.rs:
49-111): updates wins over update_expression when both are given;
neither is a ValueError; caller-supplied placeholder entries are
inserted after the auto-generated ones, so they win on key collision. -/
def prepare_update_item {flt : Type} (fstr : flt → String)
    (table : String) (key : List (String × NV flt))
    (updates : Option (List (String × NV flt)))
    (update_expression : Option String)
    (condition_expression : Option String)
    (expression_attribute_names : Option (List (String × String)))
    (expression_attribute_values : Option (List (String × NV flt)))
    (return_values_on_condition_check_failure : Bool)
    (return_values : Option String) : Except PyErr PreparedUpdateItem := do
  let dynamo_key ← pyKvsToAv fstr key
  let built ←
    match updates with
    | some upd => build_set_expression fstr upd
    | none =>
      match update_expression with
      | some expr => .ok (expr, [], [])
      | none => .error ⟨.valueError, "Either 'updates' or 'update_expression' must be provided"⟩
  let names :=
    match expression_attribute_names with
    | some user => insertAllFn (assocFn built.2.1) user
    | none => assocFn built.2.1
  let values ←
    match expression_attribute_values with
    | some user => (pyKvsToAv fstr user).map (insertAllFn (assocFn built.2.2))
    | none => .ok (assocFn built.2.2)
  let rv ←
    match return_values with
    | some s => if s ≠ "NONE" then (parse_return_values s).map some else .ok none
    | none => .ok none
  .ok ⟨table, dynamo_key, built.1, condition_expression, names, values,
    return_values_on_condition_check_failure, rv⟩

/-- Model of the sync/async update_item entry points as far as network
observability: prepare first, and only on success make the single
backend call. -/
def update_item {flt ρ : Type} (fstr : flt → String)
    (backend : PreparedUpdateItem → Except PyErr ρ)
    (table : String) (key : List (String × NV flt))
    (updates : Option (List (String × NV flt)))
    (update_expression : Option String)
    (condition_expression : Option String)
    (expression_attribute_names : Option (List (String × String)))
    (expression_attribute_values : Option (List (String × NV flt)))
    (return_values_on_condition_check_failure : Bool)
    (return_values : Option String) : TxLog PreparedUpdateItem ρ :=
  match prepare_update_item fstr table key updates update_expression condition_expression
    expression_attribute_names expression_attribute_values
    return_values_on_condition_check_failure return_values with
  | .error e => ⟨[], .error e⟩
  | .ok prepared => ⟨[prepared], backend prepared⟩

/-! ## Error classifier (src/errors.rs) -/

/-- Raised pydynox exception, with the optional conflicting item that
map_sdk_error_with_item attaches to ConditionalCheckFailedException. -/
structure RaisedErr (flt : Type) where
  kind : ExcKind
  msg : String
  item : Option (List (String × NV flt))

/-- Model of aws SdkError as consumed by the classifier: the transport
tier variants, and ServiceError carrying the typed error metadata (code,
message, Display text) plus, for ConditionalCheckFailedException on
update/delete, the conflicting item the backend embedded in the typed
error payload. -/
inductive SdkErrorM where
  | dispatchTimeout
  | dispatchIo
  | dispatchOther
  | timeoutError
  | constructionFailure (msg : String)
  | responseError (msg : String)
  | serviceError (code : Option String) (message : Option String) (display : String)
      (item : Option (List (String × AV)))

/-- Substring test used by the construction-failure credentials check;
models str::contains. -/
def containsSub (haystack needle : String) : Bool :=
  (haystack.splitOn needle).length != 1

/-- Model of map_outer_sdk_error (src/errors.rs:116-173) for the
DynamoDB service: transport-tier variants map to fixed categories before
any service dispatch; ServiceError is left for the service tier. -/
def map_outer_sdk_error {flt : Type} : SdkErrorM → Option (RaisedErr flt)
  | .dispatchTimeout =>
    some ⟨.connection, "Connection timed out to DynamoDB. Check your network or endpoint.", none⟩
  | .dispatchIo =>
    some ⟨.connection,
      "Connection failed to DynamoDB (I/O error). Check if the endpoint is reachable.", none⟩
  | .dispatchOther =>
    some ⟨.connection, "Connection failed to DynamoDB. Check if the endpoint is reachable.", none⟩
  | .timeoutError =>
    some ⟨.connection, "Connection timed out to DynamoDB. Check your network or endpoint.", none⟩
  | .constructionFailure msg =>
    if containsSub msg "credentials" || containsSub msg "Credentials" ||
        containsSub msg "NoCredentialsError" then
      some ⟨.credentials,
        "No AWS credentials found. Configure credentials via environment variables (AWS_ACCESS_KEY_ID, AWS_SECRET_ACCESS_KEY), AWS profile, or IAM role.",
        none⟩
    else some ⟨.pydynoxError, "Failed to build request: " ++ msg, none⟩
  | .responseError msg =>
    some ⟨.pydynoxError, "Invalid response from DynamoDB: " ++ msg, none⟩
  | .serviceError _ _ _ _ => none

/-- Model of map_common_service_code (src/errors.rs:178-220) for the
DynamoDB service. -/
def map_common_service_code {flt : Type} (code message : Option String) :
    Option (RaisedErr flt) :=
  match code with
  | none => none
  | some c =>
    if c = "UnrecognizedClientException" then
      some ⟨.credentials, "Invalid AWS credentials. Check your access key and secret.", none⟩
    else if c = "InvalidAccessKeyId" then
      some ⟨.credentials, "Invalid AWS access key ID. Check your credentials.", none⟩
    else if c = "SignatureDoesNotMatch" then
      some ⟨.credentials, "AWS signature mismatch. Check your secret access key.", none⟩
    else if c = "ExpiredTokenException" || c = "ExpiredToken" then
      some ⟨.credentials, "AWS credentials have expired. Refresh your session token.", none⟩
    else if c = "AccessDeniedException" || c = "AccessDenied" then
      some ⟨.accessDenied,
        "Access denied to DynamoDB: " ++ (message.getD "Check your IAM permissions."), none⟩
    else if c = "ProvisionedThroughputExceededException" || c = "LimitExceededException" ||
        c = "RequestLimitExceeded" || c = "Throttling" || c = "ThrottlingException" ||
        c = "SlowDown" || c = "TooManyRequestsException" then
      some ⟨.throughputExceeded,
        "DynamoDB request rate too high. Try again with exponential backoff.", none⟩
    else none

/-- Model of map_dynamodb_code (src/errors.rs:223-270). -/
def map_dynamodb_code {flt : Type} (code message : Option String) (display : String)
    (table : Option String) : RaisedErr flt :=
  match (map_common_service_code code message : Option (RaisedErr flt)) with
  | some e => e
  | none =>
    match code with
    | some c =>
      if c = "ResourceNotFoundException" then
        ⟨.resourceNotFound,
          (match table with
            | some t => "Table '" ++ t ++ "' not found"
            | none => "Resource not found"), none⟩
      else if c = "ResourceInUseException" then
        ⟨.resourceInUse,
          (match table with
            | some t => "Table '" ++ t ++ "' already exists"
            | none => "Resource already in use"), none⟩
      else if c = "ValidationException" then
        ⟨.validationExc, message.getD display, none⟩
      else if c = "ConditionalCheckFailedException" then
        ⟨.conditionalCheckFailed, "The condition expression evaluated to false", none⟩
      else if c = "TransactionCanceledException" then
        ⟨.transactionCanceled, message.getD "Transaction was canceled", none⟩
      else if c = "ItemCollectionSizeLimitExceededException" then
        ⟨.validationExc, "Item collection size limit exceeded", none⟩
      else ⟨.pydynoxError, message.getD display, none⟩
    | none => ⟨.pydynoxError, message.getD display, none⟩

/-- Model of map_sdk_error (src/errors.rs:276-297). -/
def map_sdk_error {flt : Type} (e : SdkErrorM) (table : Option String) : RaisedErr flt :=
  match (map_outer_sdk_error e : Option (RaisedErr flt)) with
  | some pe => pe
  | none =>
    match e with
    | .serviceError code message display _ => map_dynamodb_code code message display table
    | _ => ⟨.pydynoxError, "Unexpected DynamoDB error", none⟩

/-- Model of extract_item_from_update_error and
extract_item_from_delete_error: the embedded item of the typed
ConditionalCheckFailedException service error, when present. -/
def extract_item_from_update_error : SdkErrorM → Option (List (String × AV))
  | .serviceError code _ _ item =>
    if code = some "ConditionalCheckFailedException" then item else none
  | _ => none

/-- Model of map_sdk_error_with_item (src/errors.rs:303-341): on a
ConditionalCheckFailedException service error with a supplied item that
decodes, raise ConditionalCheckFailedException with the decoded item
attached; in every other case fall back to map_sdk_error. -/
def map_sdk_error_with_item {flt : Type} (fparse : String → Option flt)
    (e : SdkErrorM) (table : Option String)
    (item : Option (List (String × AV))) : RaisedErr flt :=
  match (map_outer_sdk_error e : Option (RaisedErr flt)) with
  | some pe => pe
  | none =>
    match e with
    | .serviceError code _ _ _ =>
      if code = some "ConditionalCheckFailedException" then
        match item with
        | some item_data =>
          match avKvsToPy fparse item_data with
          | .ok py_item =>
            ⟨.conditionalCheckFailed, "The condition expression evaluated to false",
              some py_item⟩
          | .error _ => map_sdk_error e table
        | none => map_sdk_error e table
      else map_sdk_error e table
    | _ => map_sdk_error e table

/-- Error path of execute_update_item / execute_delete_item
(src/basic_operations/update_op.rs:181-185, 246): on a backend error
the item is recovered from the typed error payload and passed to
map_sdk_error_with_item, independently of the requested return mode. -/
def update_error_for {flt : Type} (fparse : String → Option flt)
    (e : SdkErrorM) (table : Option String) : RaisedErr flt :=
  map_sdk_error_with_item fparse e table (extract_item_from_update_error e)

/-! ## Spec-side predicate for the set encoding claim

spec_set_encodable follows the words of the spec and of claim C3: a set
encodes successfully exactly when it is a non-empty homogeneous set of
strings, numbers, or bytes (numbers being ints and floats; the spec
distinguishes booleans from numbers).  It is compared against the
encoder from the source. -/

/-- Number in the sense of the spec: int or float, not bool. -/
def specNumAtom {flt : Type} : NV flt → Bool
  | .int _ => true
  | .float _ => true
  | _ => false

/-- Claim C3's encodability condition, from the spec's words. -/
def spec_set_encodable {flt : Type} (elems : List (NV flt)) : Bool :=
  !elems.isEmpty &&
    (elems.all nvIsStr || elems.all specNumAtom || elems.all nvIsBytes)

/-! ## Concrete float instantiation for witnesses

unitFloat is the one-point float model: a single float whose Python str
is "0.5"; its parser recognizes exactly that text.  It satisfies
FloatCodecLawful and makes every codec definition fully computable for
concrete evaluation. -/

/-- Canonical text of the one-point float model. -/
def unitFloatStr : Unit → String := fun _ => "0.5"

/-- Parser of the one-point float model. -/
def unitFloatParse : String → Option Unit := fun s => if s = "0.5" then some () else none

theorem digitChar_isDigit {d : Nat} (h : d < 10) : isDigitChar (digitChar d) = true := by
  interval_cases d <;> decide

theorem digitVal_digitChar {d : Nat} (h : d < 10) : digitVal (digitChar d) = d := by
  interval_cases d <;> decide

theorem decAux_digits {fuel n : Nat} (h : n ≤ fuel) :
    ∀ c ∈ decAux fuel n, isDigitChar c = true := by
  induction fuel generalizing n with
  | zero => intro c hc; simp [decAux] at hc
  | succ fuel ih =>
    intro c hc
    by_cases h0 : n = 0
    · simp [decAux, h0] at hc
    · rw [decAux, if_neg h0] at hc
      rcases List.mem_append.mp hc with h1 | h1
      · have hdiv : n / 10 ≤ fuel := by
          have := Nat.div_lt_self (Nat.pos_of_ne_zero h0) (by norm_num : 1 < 10)
          omega
        exact ih hdiv c h1
      · have hc2 : c = digitChar (n % 10) := by simpa using h1
        rw [hc2]
        exact digitChar_isDigit (Nat.mod_lt _ (by norm_num))

theorem decAux_ne_nil {fuel n : Nat} (hn : n ≠ 0) (hf : fuel ≠ 0) :
    decAux fuel n ≠ [] := by
  cases fuel with
  | zero => exact absurd rfl hf
  | succ fuel => simp [decAux, hn]

theorem parseNatDigits_decAux {fuel : Nat} :
    ∀ {n : Nat}, n ≤ fuel → ∀ (rest : List Char) (acc : Nat),
      parseNatDigits (decAux fuel n ++ rest) acc =
        parseNatDigits rest (acc * 10 ^ (decAux fuel n).length + n) := by
  induction fuel with
  | zero =>
    intro n h rest acc
    have hn : n = 0 := by omega
    subst hn
    simp [decAux, parseNatDigits]
  | succ fuel ih =>
    intro n h rest acc
    by_cases h0 : n = 0
    · subst h0; simp [decAux, parseNatDigits]
    · have hdiv : n / 10 ≤ fuel := by
        have := Nat.div_lt_self (Nat.pos_of_ne_zero h0) (by norm_num : 1 < 10)
        omega
      rw [decAux, if_neg h0, List.append_assoc,
        ih hdiv ([digitChar (n % 10)] ++ rest) acc]
      have hm : n % 10 < 10 := Nat.mod_lt _ (by norm_num)
      simp only [List.cons_append, List.nil_append, parseNatDigits,
        digitChar_isDigit hm, if_true, digitVal_digitChar hm]
      congr 1
      rw [List.length_append, List.length_singleton, pow_succ]
      calc (acc * 10 ^ (decAux fuel (n / 10)).length + n / 10) * 10 + n % 10
          = acc * (10 ^ (decAux fuel (n / 10)).length * 10) + (10 * (n / 10) + n % 10) := by
            ring
        _ = acc * (10 ^ (decAux fuel (n / 10)).length * 10) + n := by
            rw [Nat.div_add_mod]

theorem natDecText_data (n : Nat) (h0 : n ≠ 0) : (natDecText n).data = decAux n n := by
  rw [natDecText, if_neg h0]

theorem parseNatDigits_natDec (n : Nat) :
    parseNatDigits (natDecText n).data 0 = some n := by
  by_cases h0 : n = 0
  · subst h0; decide
  · rw [natDecText_data n h0]
    have := parseNatDigits_decAux (le_refl n) [] 0
    rw [List.append_nil] at this
    rw [this]
    simp [parseNatDigits]

theorem natDecText_digits (n : Nat) :
    ∀ c ∈ (natDecText n).data, isDigitChar c = true := by
  by_cases h0 : n = 0
  · subst h0; decide
  · rw [natDecText_data n h0]
    exact decAux_digits (le_refl n)

theorem natDecText_ne_nil (n : Nat) : (natDecText n).data ≠ [] := by
  by_cases h0 : n = 0
  · subst h0; decide
  · rw [natDecText_data n h0]
    exact decAux_ne_nil h0 h0

theorem not_marker_of_digit {c : Char} (h : isDigitChar c = true) :
    (c == '.' || c == 'e' || c == 'E') = false := by
  have h1 : c ≠ '.' := by rintro rfl; exact absurd h (by decide)
  have h2 : c ≠ 'e' := by rintro rfl; exact absurd h (by decide)
  have h3 : c ≠ 'E' := by rintro rfl; exact absurd h (by decide)
  simp [h1, h2, h3]

theorem hasMarker_natDecText (n : Nat) : hasMarker (natDecText n) = false := by
  rw [hasMarker, List.any_eq_false]
  intro c hc
  simp [not_marker_of_digit (natDecText_digits n c hc)]

theorem hasMarker_intDecText (n : Int) : hasMarker (intDecText n) = false := by
  by_cases hneg : n < 0
  · rw [intDecText, if_pos hneg, hasMarker, List.any_eq_false]
    intro c hc
    rcases List.mem_cons.mp hc with rfl | hc
    · decide
    · simp [not_marker_of_digit (decAux_digits (le_refl n.natAbs) c hc)]
  · rw [intDecText, if_neg hneg]
    exact hasMarker_natDecText n.natAbs

theorem digit_ne_minus {c : Char} (h : isDigitChar c = true) : c ≠ '-' := by
  rintro rfl; exact absurd h (by decide)

theorem digit_ne_plus {c : Char} (h : isDigitChar c = true) : c ≠ '+' := by
  rintro rfl; exact absurd h (by decide)

theorem parseI64Text_intDecText (n : Int) :
    parseI64Text (intDecText n) =
      if -(2 ^ 63) ≤ n ∧ n ≤ 2 ^ 63 - 1 then some n else none := by
  by_cases hneg : n < 0
  · have habs : n.natAbs ≠ 0 := by omega
    have hdata : (intDecText n).data = '-' :: decAux n.natAbs n.natAbs := by
      rw [intDecText, if_pos hneg]
    rcases hD : decAux n.natAbs n.natAbs with _ | ⟨c, cs⟩
    · exact absurd hD (decAux_ne_nil habs habs)
    · rw [parseI64Text, hdata, hD, parseI64Chars, if_pos rfl,
        if_neg (show ¬((c :: cs).isEmpty = true) by simp)]
      rw [parseI64Neg, ← hD]
      have hp := parseNatDigits_decAux (le_refl n.natAbs) [] 0
      rw [List.append_nil] at hp
      rw [hp]
      simp only [parseNatDigits, Nat.zero_mul, Nat.zero_add, Option.some_bind]
      by_cases hrange : n.natAbs ≤ 2 ^ 63
      · rw [if_pos hrange, if_pos (by constructor <;> omega)]
        congr 1
        omega
      · rw [if_neg hrange, if_neg (by omega)]
  · have hdata : (intDecText n).data = (natDecText n.natAbs).data := by
      rw [intDecText, if_neg hneg]
    rcases hd : (natDecText n.natAbs).data with _ | ⟨c, cs⟩
    · exact absurd hd (natDecText_ne_nil _)
    · have hcdigit : isDigitChar c = true :=
        natDecText_digits n.natAbs c (by rw [hd]; exact List.mem_cons_self _ _)
      rw [parseI64Text, hdata, hd, parseI64Chars, if_neg (digit_ne_minus hcdigit),
        if_neg (digit_ne_plus hcdigit), parseI64Pos, ← hd, parseNatDigits_natDec]
      simp only [Option.some_bind]
      by_cases hrange : n.natAbs ≤ 2 ^ 63 - 1
      · rw [if_pos hrange, if_pos (by constructor <;> omega)]
        congr 1
        omega
      · rw [if_neg hrange, if_neg (by omega)]

/-! ## Round-trip lemmas for the codec -/

theorem decodeNumText_int_ok {fparse : String → Option flt} {n : Int}
    (h : -(2 ^ 63) ≤ n ∧ n ≤ 2 ^ 63 - 1) :
    decodeNumText fparse (intDecText n) = .ok (.int n) := by
  rw [decodeNumText, hasMarker_intDecText, if_neg (by simp),
    parseI64Text_intDecText, if_pos h]

theorem decodeNumText_int_fail {fparse : String → Option flt} {n : Int}
    (h : ¬(-(2 ^ 63) ≤ n ∧ n ≤ 2 ^ 63 - 1)) :
    decodeNumText fparse (intDecText n) =
      .error ⟨.valueError, "Invalid number: " ++ intDecText n⟩ := by
  rw [decodeNumText, hasMarker_intDecText, if_neg (by simp),
    parseI64Text_intDecText, if_neg h]

theorem decodeNumText_float_ok {fstr : flt → String} {fparse : String → Option flt}
    (hL : FloatCodecLawful fstr fparse) (f : flt) :
    decodeNumText fparse (fstr f) = .ok (.float f) := by
  rw [decodeNumText, hL.2 f, if_pos rfl, hL.1 f]

theorem mapOrErr_str_ok {e : PyErr} :
    ∀ {elems : List (NV flt)}, elems.all nvIsStr = true →
      ∃ ss, mapOrErr nvStrVal e elems = .ok ss ∧ ss.map NV.str = elems := by
  intro elems h
  induction elems with
  | nil => exact ⟨[], rfl, rfl⟩
  | cons x xs ih =>
    rw [List.all_cons, Bool.and_eq_true] at h
    obtain ⟨ss, h1, h2⟩ := ih h.2
    cases x with
    | str s =>
      refine ⟨s :: ss, ?_, by simp [h2]⟩
      rw [mapOrErr]
      simp [nvStrVal, h1, Except.map]
    | pynone => simp [nvIsStr] at h
    | bool b => simp [nvIsStr] at h
    | int n => simp [nvIsStr] at h
    | float f => simp [nvIsStr] at h
    | bytes bs => simp [nvIsStr] at h
    | set es => simp [nvIsStr] at h
    | list l => simp [nvIsStr] at h
    | map m => simp [nvIsStr] at h

theorem mapOrErr_num_ok {fstr : flt → String} {fparse : String → Option flt}
    (hL : FloatCodecLawful fstr fparse) {e : PyErr} :
    ∀ {elems : List (NV flt)}, elems.all numElemGood = true →
      ∃ ns, mapOrErr (nvNumText fstr) e elems = .ok ns ∧
        decodeNsElems fparse ns = .ok elems := by
  intro elems h
  induction elems with
  | nil => exact ⟨[], rfl, rfl⟩
  | cons x xs ih =>
    rw [List.all_cons, Bool.and_eq_true] at h
    obtain ⟨ns, h1, h2⟩ := ih h.2
    cases x with
    | int n =>
      have hr : -(2 ^ 63) ≤ n ∧ n ≤ 2 ^ 63 - 1 := by
        have := h.1; simp [numElemGood] at this; exact this
      refine ⟨intDecText n :: ns, ?_, ?_⟩
      · rw [mapOrErr]; simp [nvNumText, h1, Except.map]
      · simp only [decodeNsElems, decodeNumText_int_ok hr, h2]
        rfl
    | float f =>
      refine ⟨fstr f :: ns, ?_, ?_⟩
      · rw [mapOrErr]; simp [nvNumText, h1, Except.map]
      · simp only [decodeNsElems, decodeNumText_float_ok hL f, h2]
        rfl
    | pynone => simp [numElemGood] at h
    | str s => simp [numElemGood] at h
    | bool b => simp [numElemGood] at h
    | bytes bs => simp [numElemGood] at h
    | set es => simp [numElemGood] at h
    | list l => simp [numElemGood] at h
    | map m => simp [numElemGood] at h

theorem mapOrErr_bytes_ok {e : PyErr} :
    ∀ {elems : List (NV flt)}, elems.all nvIsBytes = true →
      ∃ bs, mapOrErr nvBytesVal e elems = .ok bs ∧ bs.map NV.bytes = elems := by
  intro elems h
  induction elems with
  | nil => exact ⟨[], rfl, rfl⟩
  | cons x xs ih =>
    rw [List.all_cons, Bool.and_eq_true] at h
    obtain ⟨bs, h1, h2⟩ := ih h.2
    cases x with
    | bytes b =>
      refine ⟨b :: bs, ?_, by simp [h2]⟩
      rw [mapOrErr]
      simp [nvBytesVal, h1, Except.map]
    | pynone => simp [nvIsBytes] at h
    | str s => simp [nvIsBytes] at h
    | bool b => simp [nvIsBytes] at h
    | int n => simp [nvIsBytes] at h
    | float f => simp [nvIsBytes] at h
    | set es => simp [nvIsBytes] at h
    | list l => simp [nvIsBytes] at h
    | map m => simp [nvIsBytes] at h

theorem numElemGood_not_str {x : NV flt} (h : numElemGood x = true) : nvIsStr x = false := by
  cases x <;> simp_all [numElemGood, nvIsStr]

theorem numElemGood_casts {x : NV flt} (h : numElemGood x = true) : castsToNumber x = true := by
  cases x <;> simp_all [numElemGood, castsToNumber]

theorem nvIsBytes_not_str {x : NV flt} (h : nvIsBytes x = true) : nvIsStr x = false := by
  cases x <;> simp_all [nvIsBytes, nvIsStr]

theorem nvIsBytes_not_num {x : NV flt} (h : nvIsBytes x = true) : castsToNumber x = false := by
  cases x <;> simp_all [nvIsBytes, castsToNumber]

theorem convert_set_roundtrip {fstr : flt → String} {fparse : String → Option flt}
    (hL : FloatCodecLawful fstr fparse) {elems : List (NV flt)}
    (hg : goodNV (.set elems) = true) :
    ∃ av, convert_set_direct fstr elems = .ok av ∧
      attribute_value_to_py_direct fparse av = .ok (.set elems) := by
  rw [goodNV, Bool.and_eq_true, Bool.or_eq_true, Bool.or_eq_true] at hg
  obtain ⟨hne, hclass⟩ := hg
  cases elems with
  | nil => simp at hne
  | cons first rest =>
    rcases hclass with (hstr | hnum) | hbytes
    · have hfirst : nvIsStr first = true := by
        rw [List.all_cons, Bool.and_eq_true] at hstr; exact hstr.1
      obtain ⟨ss, h1, h2⟩ := mapOrErr_str_ok (e := ⟨.typeError, "String set must contain only strings"⟩) hstr
      refine ⟨.Ss ss, ?_, ?_⟩
      · rw [convert_set_direct, if_pos hfirst, h1]; rfl
      · rw [attribute_value_to_py_direct, h2]
    · have hfirst : numElemGood first = true := by
        rw [List.all_cons, Bool.and_eq_true] at hnum; exact hnum.1
      have hfs : nvIsStr first = false := numElemGood_not_str hfirst
      have hfn : castsToNumber first = true := numElemGood_casts hfirst
      obtain ⟨ns, h1, h2⟩ := mapOrErr_num_ok hL (e := ⟨.typeError, "Number set must contain only numbers"⟩) hnum
      refine ⟨.Ns ns, ?_, ?_⟩
      · rw [convert_set_direct, if_neg (by simp [hfs]), if_pos hfn, h1]; rfl
      · rw [attribute_value_to_py_direct, h2]; rfl
    · have hfirst : nvIsBytes first = true := by
        rw [List.all_cons, Bool.and_eq_true] at hbytes; exact hbytes.1
      have hfs : nvIsStr first = false := nvIsBytes_not_str hfirst
      have hfn : castsToNumber first = false := nvIsBytes_not_num hfirst
      obtain ⟨bs, h1, h2⟩ := mapOrErr_bytes_ok (e := ⟨.typeError, "Binary set must contain only bytes"⟩) hbytes
      refine ⟨.Bs bs, ?_, ?_⟩
      · rw [convert_set_direct, if_neg (by simp [hfs]), if_neg (by simp [hfn]),
          if_pos hfirst, h1]; rfl
      · rw [attribute_value_to_py_direct, h2]

theorem pyListToAv_roundtrip {fstr : flt → String} {fparse : String → Option flt}
    {xs : List (NV flt)}
    (h : ∀ x ∈ xs, goodNV x = true →
      (py_to_attribute_value_direct fstr x).bind (attribute_value_to_py_direct fparse) = .ok x)
    (hg : goodList xs = true) :
    ∃ l, pyListToAv fstr xs = .ok l ∧ avListToPy fparse l = .ok xs := by
  induction xs with
  | nil => exact ⟨[], rfl, rfl⟩
  | cons x xs ih =>
    rw [goodList, Bool.and_eq_true] at hg
    have hx := h x (List.mem_cons_self _ _) hg.1
    obtain ⟨l, h1, h2⟩ := ih (fun y hy => h y (List.mem_cons_of_mem _ hy)) hg.2
    rcases hpx : py_to_attribute_value_direct fstr x with e | a
    · rw [hpx] at hx; simp [Except.bind] at hx
    · rw [hpx] at hx
      simp only [Except.bind] at hx
      refine ⟨a :: l, ?_, ?_⟩
      · simp only [pyListToAv, hpx, h1]
        rfl
      · simp only [avListToPy, hx, h2]
        rfl

theorem pyKvsToAv_roundtrip {fstr : flt → String} {fparse : String → Option flt}
    {kvs : List (String × NV flt)}
    (h : ∀ kv ∈ kvs, goodNV kv.2 = true →
      (py_to_attribute_value_direct fstr kv.2).bind (attribute_value_to_py_direct fparse) = .ok kv.2)
    (hg : goodKvs kvs = true) :
    ∃ l, pyKvsToAv fstr kvs = .ok l ∧ avKvsToPy fparse l = .ok kvs := by
  induction kvs with
  | nil => exact ⟨[], rfl, rfl⟩
  | cons kv kvs ih =>
    obtain ⟨k, v⟩ := kv
    rw [goodKvs, Bool.and_eq_true] at hg
    have hx := h (k, v) (List.mem_cons_self _ _) hg.1
    obtain ⟨l, h1, h2⟩ := ih (fun y hy => h y (List.mem_cons_of_mem _ hy)) hg.2
    rcases hpx : py_to_attribute_value_direct fstr v with e | a
    · rw [hpx] at hx; simp [Except.bind] at hx
    · rw [hpx] at hx
      simp only [Except.bind] at hx
      refine ⟨(k, a) :: l, ?_, ?_⟩
      · simp only [pyKvsToAv, hpx, h1]
        rfl
      · simp only [avKvsToPy, hx, h2]
        rfl

theorem roundtrip_good {fstr : flt → String} {fparse : String → Option flt}
    (hL : FloatCodecLawful fstr fparse) :
    ∀ v : NV flt, goodNV v = true →
      (py_to_attribute_value_direct fstr v).bind (attribute_value_to_py_direct fparse) = .ok v := by
  suffices H : ∀ (bound : Nat) (v : NV flt), sizeOf v < bound → goodNV v = true →
      (py_to_attribute_value_direct fstr v).bind (attribute_value_to_py_direct fparse) = .ok v by
    exact fun v hv => H (sizeOf v + 1) v (by omega) hv
  intro bound
  induction bound with
  | zero => intro v hlt; omega
  | succ bound ih =>
    intro v hlt hg
    cases v with
    | pynone => rfl
    | str s => rfl
    | bool b => rfl
    | int n =>
      have hr : -(2 ^ 63) ≤ n ∧ n ≤ 2 ^ 63 - 1 := by
        rw [goodNV] at hg; exact of_decide_eq_true hg
      rw [py_to_attribute_value_direct]
      simp only [Except.bind]
      rw [attribute_value_to_py_direct, decodeNumText_int_ok hr]
    | float f =>
      rw [py_to_attribute_value_direct]
      simp only [Except.bind]
      rw [attribute_value_to_py_direct, decodeNumText_float_ok hL f]
    | bytes bs => rfl
    | set elems =>
      obtain ⟨av, h1, h2⟩ := convert_set_roundtrip hL hg
      rw [py_to_attribute_value_direct, h1]
      simp only [Except.bind]
      exact h2
    | list xs =>
      have hsz : sizeOf (NV.list xs) = 1 + sizeOf xs := by simp
      have helem : ∀ x ∈ xs, goodNV x = true →
          (py_to_attribute_value_direct fstr x).bind (attribute_value_to_py_direct fparse) = .ok x := by
        intro x hx
        have h1 : sizeOf x < sizeOf xs := List.sizeOf_lt_of_mem hx
        exact ih x (by omega)
      have hgl : goodList xs = true := by rw [goodNV] at hg; exact hg
      obtain ⟨l, h1, h2⟩ := pyListToAv_roundtrip helem hgl
      rw [py_to_attribute_value_direct, h1]
      simp only [Except.map, Except.bind]
      rw [attribute_value_to_py_direct, h2]
      rfl
    | map kvs =>
      have hsz : sizeOf (NV.map kvs) = 1 + sizeOf kvs := by simp
      have helem : ∀ kv ∈ kvs, goodNV kv.2 = true →
          (py_to_attribute_value_direct fstr kv.2).bind (attribute_value_to_py_direct fparse) = .ok kv.2 := by
        intro kv hkv
        have h1 : sizeOf kv < sizeOf kvs := List.sizeOf_lt_of_mem hkv
        have h2 : sizeOf kv.2 < sizeOf kv := by
          obtain ⟨k, v2⟩ := kv
          simp
        exact ih kv.2 (by omega)
      have hgk : goodKvs kvs = true := by rw [goodNV] at hg; exact hg
      obtain ⟨l, h1, h2⟩ := pyKvsToAv_roundtrip helem hgk
      rw [py_to_attribute_value_direct, h1]
      simp only [Except.map, Except.bind]
      rw [attribute_value_to_py_direct, h2]
      rfl


/-! ## Element-wise lemmas for set and container encoding -/

theorem nvStrVal_isSome {x : NV flt} : (nvStrVal x).isSome = nvIsStr x := by
  cases x <;> rfl

theorem nvNumText_isSome {fstr : flt → String} {x : NV flt} :
    (nvNumText fstr x).isSome = castsToNumber x := by
  cases x <;> rfl

theorem nvBytesVal_isSome {x : NV flt} : (nvBytesVal x).isSome = nvIsBytes x := by
  cases x <;> rfl

theorem bind_eq_ok {ε α β : Type} {x : Except ε α} {f : α → Except ε β} {b : β}
    (h : x >>= f = Except.ok b) : ∃ a, x = .ok a ∧ f a = .ok b := by
  rcases x with e | a
  · exact Except.noConfusion (show Except.error e = Except.ok b from h)
  · exact ⟨a, rfl, h⟩

theorem mapOrErr_ok_all {β : Type} {f : NV flt → Option β} {e : PyErr}
    {l : List (NV flt)} {ys : List β} (h : mapOrErr f e l = .ok ys) :
    ∀ x ∈ l, (f x).isSome = true := by
  induction l generalizing ys with
  | nil => intro x hx; cases hx
  | cons a as ih =>
    intro x hx
    rw [mapOrErr] at h
    rcases hfa : f a with _ | y
    · rw [hfa] at h; cases h
    · rw [hfa] at h
      rcases hrest : mapOrErr f e as with e2 | ys2
      · rw [hrest] at h; cases h
      · rcases List.mem_cons.mp hx with rfl | hx2
        · rw [hfa]; rfl
        · exact ih hrest x hx2

theorem mapOrErr_all_ok {β : Type} {f : NV flt → Option β} {e : PyErr}
    {l : List (NV flt)} (h : ∀ x ∈ l, (f x).isSome = true) :
    ∃ ys, mapOrErr f e l = .ok ys := by
  induction l with
  | nil => exact ⟨[], rfl⟩
  | cons a as ih =>
    obtain ⟨ys, hys⟩ := ih fun x hx => h x (List.mem_cons_of_mem _ hx)
    have ha := h a (List.mem_cons_self _ _)
    rcases hfa : f a with _ | y
    · rw [hfa] at ha; cases ha
    · exact ⟨y :: ys, by rw [mapOrErr, hfa, hys]; rfl⟩

theorem mapOrErr_index {β : Type} {f : NV flt → Option β} {e : PyErr}
    {l : List (NV flt)} {ys : List β} (h : mapOrErr f e l = .ok ys) :
    ∀ (i : Nat) (x : NV flt), l[i]? = some x → ∃ y, f x = some y ∧ ys[i]? = some y := by
  induction l generalizing ys with
  | nil => intro i x hx; simp at hx
  | cons a as ih =>
    intro i x hx
    rw [mapOrErr] at h
    rcases hfa : f a with _ | y
    · rw [hfa] at h; cases h
    · rw [hfa] at h
      rcases hrest : mapOrErr f e as with e2 | ys2
      · rw [hrest] at h; cases h
      · rw [hrest] at h
        simp only [Except.map] at h
        cases h
        cases i with
        | zero =>
          simp at hx
          subst hx
          exact ⟨y, hfa, by simp⟩
        | succ i =>
          simp only [List.getElem?_cons_succ] at hx ⊢
          exact ih hrest i x hx

theorem mapOrErr_length {β : Type} {f : NV flt → Option β} {e : PyErr}
    {l : List (NV flt)} {ys : List β} (h : mapOrErr f e l = .ok ys) :
    ys.length = l.length := by
  induction l generalizing ys with
  | nil => cases h; rfl
  | cons a as ih =>
    rw [mapOrErr] at h
    rcases hfa : f a with _ | y
    · rw [hfa] at h; cases h
    · rw [hfa] at h
      rcases hrest : mapOrErr f e as with e2 | ys2
      · rw [hrest] at h; cases h
      · rw [hrest] at h
        simp only [Except.map] at h
        cases h
        simp [ih hrest]

theorem pyListToAv_index {fstr : flt → String} {xs : List (NV flt)} {ys : List AV}
    (h : pyListToAv fstr xs = .ok ys) :
    ∀ (i : Nat) (x : NV flt), xs[i]? = some x →
      ∃ a, py_to_attribute_value_direct fstr x = .ok a ∧ ys[i]? = some a := by
  induction xs generalizing ys with
  | nil => intro i x hx; simp at hx
  | cons b bs ih =>
    intro i x hx
    rw [pyListToAv] at h
    obtain ⟨a, hb, h2⟩ := bind_eq_ok h
    obtain ⟨as, hrest, h3⟩ := bind_eq_ok h2
    obtain rfl : a :: as = ys := by exact Except.ok.inj h3
    cases i with
    | zero =>
      simp at hx
      subst hx
      exact ⟨a, hb, by simp⟩
    | succ i =>
      simp only [List.getElem?_cons_succ] at hx ⊢
      exact ih hrest i x hx

theorem pyKvsToAv_index {fstr : flt → String} {kvs : List (String × NV flt)}
    {ys : List (String × AV)} (h : pyKvsToAv fstr kvs = .ok ys) :
    ∀ (i : Nat) (k : String) (v : NV flt), kvs[i]? = some (k, v) →
      ∃ a, py_to_attribute_value_direct fstr v = .ok a ∧ ys[i]? = some (k, a) := by
  induction kvs generalizing ys with
  | nil => intro i k v hx; simp at hx
  | cons b bs ih =>
    intro i k v hx
    obtain ⟨bk, bv⟩ := b
    rw [pyKvsToAv] at h
    obtain ⟨a, hb, h2⟩ := bind_eq_ok h
    obtain ⟨as, hrest, h3⟩ := bind_eq_ok h2
    obtain rfl : (bk, a) :: as = ys := by exact Except.ok.inj h3
    cases i with
    | zero =>
      simp at hx
      obtain ⟨rfl, rfl⟩ := hx
      exact ⟨a, hb, by simp⟩
    | succ i =>
      simp only [List.getElem?_cons_succ] at hx ⊢
      exact ih hrest i k v hx


/-! ## Lemmas for the batch write executor -/

theorem chunksAux_nil {α : Type} (n fuel : Nat) : chunksAux n fuel ([] : List α) = [] := by
  cases fuel <;> rfl

theorem chunksAux_congr {α : Type} {n : Nat} (hn : 0 < n) :
    ∀ (len fuel1 fuel2 : Nat) (l : List α), l.length ≤ len →
      l.length ≤ fuel1 → l.length ≤ fuel2 →
      chunksAux n fuel1 l = chunksAux n fuel2 l := by
  intro len
  induction len with
  | zero =>
    intro f1 f2 l h _ _
    have hl : l = [] := List.length_eq_zero.mp (by omega)
    subst hl
    rw [chunksAux_nil, chunksAux_nil]
  | succ len ih =>
    intro f1 f2 l h h1 h2
    cases l with
    | nil => rw [chunksAux_nil, chunksAux_nil]
    | cons a as =>
      cases f1 with
      | zero => simp at h1
      | succ f1 =>
        cases f2 with
        | zero => simp at h2
        | succ f2 =>
          show (a :: as).take n :: chunksAux n f1 ((a :: as).drop n) =
            (a :: as).take n :: chunksAux n f2 ((a :: as).drop n)
          congr 1
          have hd : ((a :: as).drop n).length = (a :: as).length - n := List.length_drop _ _
          apply ih f1 f2
          · simp at h
            simp [hd]
            omega
          · simp at h1
            simp [hd]
            omega
          · simp at h2
            simp [hd]
            omega

theorem chunksOf_cons {α : Type} {n : Nat} (hn : 0 < n) {l : List α} (hl : l ≠ []) :
    chunksOf n l = l.take n :: chunksOf n (l.drop n) := by
  cases l with
  | nil => exact absurd rfl hl
  | cons a as =>
    have hstep : chunksOf n (a :: as) =
        (a :: as).take n :: chunksAux n as.length ((a :: as).drop n) := rfl
    rw [hstep]
    congr 1
    have hd : ((a :: as).drop n).length = (a :: as).length - n := List.length_drop _ _
    apply chunksAux_congr hn as.length
    · simp [hd]
      omega
    · simp [hd]
      omega
    · exact le_refl _

theorem chunksOf_split_30 {α : Type} {l : List α} (h : l.length = 30) :
    chunksOf 25 l = [l.take 25, l.drop 25] ∧
      (l.take 25).length = 25 ∧ (l.drop 25).length = 5 := by
  have hl : l ≠ [] := by
    intro hh
    subst hh
    simp at h
  have ht : (l.take 25).length = 25 := by
    rw [List.length_take]
    omega
  have hd : (l.drop 25).length = 5 := by
    rw [List.length_drop]
    omega
  refine ⟨?_, ht, hd⟩
  rw [chunksOf_cons (by norm_num) hl]
  congr 1
  have hd1 : l.drop 25 ≠ [] := by
    intro hh
    rw [hh] at hd
    simp at hd
  rw [chunksOf_cons (by norm_num) hd1]
  have h1 : (l.drop 25).take 25 = l.drop 25 := List.take_of_length_le (by omega)
  have h2 : (l.drop 25).drop 25 = [] := List.drop_eq_nil_of_le (by omega)
  rw [h1, h2, chunksOf, chunksAux_nil]

theorem chunkLoopAux_zero {α ε : Type} (oracle : Nat → Except ε (List α))
    (k : Nat) (pending : List α) (retries : Nat) :
    chunkLoopAux oracle 0 k pending retries =
      ⟨[], [],
        if pending.isEmpty then .ok ()
        else .error (.runtime (retryFailureMsg pending.length BATCH_MAX_RETRIES)),
        pending, k⟩ := rfl

theorem chunkLoopAux_succ_empty {α ε : Type} (oracle : Nat → Except ε (List α))
    {fuel k : Nat} {pending : List α} {retries : Nat} (hp : pending.isEmpty = true) :
    chunkLoopAux oracle (fuel + 1) k pending retries = ⟨[], [], .ok (), pending, k⟩ := by
  rw [chunkLoopAux, if_pos hp]

theorem chunkLoopAux_succ_sdkerr {α ε : Type} {oracle : Nat → Except ε (List α)}
    {fuel k : Nat} {pending : List α} {retries : Nat} {e : ε}
    (hp : pending.isEmpty = false) (ho : oracle k = .error e) :
    chunkLoopAux oracle (fuel + 1) k pending retries =
      ⟨[pending], [], .error (.sdk e), pending, k + 1⟩ := by
  rw [chunkLoopAux, if_neg (by simp [hp]), ho]

theorem chunkLoopAux_succ_done {α ε : Type} {oracle : Nat → Except ε (List α)}
    {fuel k : Nat} {pending u : List α} {retries : Nat}
    (hp : pending.isEmpty = false) (ho : oracle k = .ok u) (hu : u.isEmpty = true) :
    chunkLoopAux oracle (fuel + 1) k pending retries =
      ⟨[pending], [], .ok (), [], k + 1⟩ := by
  rw [chunkLoopAux, if_neg (by simp [hp]), ho]
  simp [hu]

theorem chunkLoopAux_succ_retry {α ε : Type} {oracle : Nat → Except ε (List α)}
    {fuel k : Nat} {pending u : List α} {retries : Nat}
    (hp : pending.isEmpty = false) (ho : oracle k = .ok u) (hu : u.isEmpty = false) :
    chunkLoopAux oracle (fuel + 1) k pending retries =
      ⟨pending :: (chunkLoopAux oracle fuel (k + 1) u (retries + 1)).calls,
        50 * 2 ^ (retries + 1) :: (chunkLoopAux oracle fuel (k + 1) u (retries + 1)).delays,
        (chunkLoopAux oracle fuel (k + 1) u (retries + 1)).result,
        (chunkLoopAux oracle fuel (k + 1) u (retries + 1)).finalPending,
        (chunkLoopAux oracle fuel (k + 1) u (retries + 1)).nextIdx⟩ := by
  rw [chunkLoopAux, if_neg (by simp [hp]), ho]
  simp [hu]

theorem chunkLoopAux_calls_length_le {α ε : Type} (oracle : Nat → Except ε (List α)) :
    ∀ (fuel k : Nat) (pending : List α) (retries : Nat),
      (chunkLoopAux oracle fuel k pending retries).calls.length ≤ fuel := by
  intro fuel
  induction fuel with
  | zero => intro k pending retries; rw [chunkLoopAux_zero]; simp
  | succ fuel ih =>
    intro k pending retries
    cases hp : pending.isEmpty with
    | true => rw [chunkLoopAux_succ_empty oracle hp]; simp
    | false =>
      rcases ho : oracle k with e | u
      · rw [chunkLoopAux_succ_sdkerr hp ho]
        simp
      · cases hu : u.isEmpty with
        | true => rw [chunkLoopAux_succ_done hp ho hu]; simp
        | false =>
          rw [chunkLoopAux_succ_retry hp ho hu]
          have := ih (k + 1) u (retries + 1)
          simp only [List.length_cons]
          omega

theorem chunkLoopAux_head_call {α ε : Type} (oracle : Nat → Except ε (List α))
    {fuel : Nat} (k : Nat) {pending : List α} (retries : Nat)
    (h1 : fuel ≠ 0) (h2 : pending ≠ []) :
    (chunkLoopAux oracle fuel k pending retries).calls[0]? = some pending := by
  cases fuel with
  | zero => exact absurd rfl h1
  | succ fuel =>
    have hp : pending.isEmpty = false := by
      cases pending
      · exact absurd rfl h2
      · rfl
    rcases ho : oracle k with e | u
    · rw [chunkLoopAux_succ_sdkerr hp ho]
      simp
    · cases hu : u.isEmpty with
      | true =>
        rw [chunkLoopAux_succ_done hp ho hu]
        simp
      | false =>
        rw [chunkLoopAux_succ_retry hp ho hu]
        simp

theorem chunkLoopAux_delays_formula {α ε : Type} (oracle : Nat → Except ε (List α)) :
    ∀ (fuel k : Nat) (pending : List α) (retries i : Nat) (x : Nat),
      (chunkLoopAux oracle fuel k pending retries).delays[i]? = some x →
      x = 50 * 2 ^ (retries + 1 + i) := by
  intro fuel
  induction fuel with
  | zero =>
    intro k pending retries i x hx
    rw [chunkLoopAux_zero] at hx
    simp at hx
  | succ fuel ih =>
    intro k pending retries i x hx
    cases hp : pending.isEmpty with
    | true =>
      rw [chunkLoopAux_succ_empty oracle hp] at hx
      simp at hx
    | false =>
      rcases ho : oracle k with e | u
      · rw [chunkLoopAux_succ_sdkerr hp ho] at hx
        simp at hx
      · cases hu : u.isEmpty with
        | true =>
          rw [chunkLoopAux_succ_done hp ho hu] at hx
          simp at hx
        | false =>
          rw [chunkLoopAux_succ_retry hp ho hu] at hx
          cases i with
          | zero =>
            simp at hx
            simpa using hx.symm
          | succ i =>
            simp only [List.getElem?_cons_succ] at hx
            rw [ih (k + 1) u (retries + 1) i x hx]
            congr 2
            omega

theorem chunkLoopAux_ok_finalPending {α ε : Type} (oracle : Nat → Except ε (List α)) :
    ∀ (fuel k : Nat) (pending : List α) (retries : Nat),
      (chunkLoopAux oracle fuel k pending retries).result = .ok () →
      (chunkLoopAux oracle fuel k pending retries).finalPending = [] := by
  intro fuel
  induction fuel with
  | zero =>
    intro k pending retries h
    rw [chunkLoopAux_zero] at h ⊢
    cases hp : pending.isEmpty with
    | true => simpa [List.isEmpty_iff] using hp
    | false => rw [hp] at h; simp at h
  | succ fuel ih =>
    intro k pending retries h
    cases hp : pending.isEmpty with
    | true =>
      rw [chunkLoopAux_succ_empty oracle hp] at h ⊢
      simpa [List.isEmpty_iff] using hp
    | false =>
      rcases ho : oracle k with e | u
      · rw [chunkLoopAux_succ_sdkerr hp ho] at h
        cases h
      · cases hu : u.isEmpty with
        | true => rw [chunkLoopAux_succ_done hp ho hu]
        | false =>
          rw [chunkLoopAux_succ_retry hp ho hu] at h ⊢
          exact ih (k + 1) u (retries + 1) h

theorem chunkLoopAux_runtime {α ε : Type} (oracle : Nat → Except ε (List α)) :
    ∀ (fuel k : Nat) (pending : List α) (retries : Nat) (m : String),
      (chunkLoopAux oracle fuel k pending retries).result = .error (.runtime m) →
      m = retryFailureMsg (chunkLoopAux oracle fuel k pending retries).finalPending.length
        BATCH_MAX_RETRIES ∧
      (chunkLoopAux oracle fuel k pending retries).finalPending ≠ [] := by
  intro fuel
  induction fuel with
  | zero =>
    intro k pending retries m h
    rw [chunkLoopAux_zero] at h ⊢
    cases hp : pending.isEmpty with
    | true => rw [hp] at h; simp at h
    | false =>
      rw [hp] at h
      simp only at h ⊢
      refine ⟨?_, ?_⟩
      · cases h
        rfl
      · intro hnil
        rw [hnil] at hp
        simp at hp
  | succ fuel ih =>
    intro k pending retries m h
    cases hp : pending.isEmpty with
    | true =>
      rw [chunkLoopAux_succ_empty oracle hp] at h
      cases h
    | false =>
      rcases ho : oracle k with e | u
      · rw [chunkLoopAux_succ_sdkerr hp ho] at h
        simp at h
      · cases hu : u.isEmpty with
        | true =>
          rw [chunkLoopAux_succ_done hp ho hu] at h
          cases h
        | false =>
          rw [chunkLoopAux_succ_retry hp ho hu] at h ⊢
          exact ih (k + 1) u (retries + 1) m h

theorem processChunk_all_done {α ε : Type} (oracle : Nat → Except ε (List α))
    (k : Nat) {chunk : List α} (hc : chunk ≠ []) (ho : oracle k = .ok []) :
    processChunk oracle k chunk = ⟨[chunk], [], .ok (), [], k + 1⟩ := by
  have hp : chunk.isEmpty = false := by
    cases chunk
    · exact absurd rfl hc
    · rfl
  show chunkLoopAux oracle (4 + 1) k chunk 0 = _
  rw [chunkLoopAux_succ_done hp ho rfl]

theorem runChunks_ok_leftover {α ε : Type} (oracle : Nat → Except ε (List α)) :
    ∀ (cs : List (List α)) (k : Nat),
      (runChunks oracle k cs).result = .ok () → (runChunks oracle k cs).leftover = [] := by
  intro cs
  induction cs with
  | nil => intro k _; rfl
  | cons c cs ih =>
    intro k h
    rw [runChunks] at h ⊢
    generalize hres : (processChunk oracle k c).result = res at h ⊢
    cases res with
    | error e => exact Except.noConfusion (show Except.error e = Except.ok () from h)
    | ok u => exact ih _ h

theorem runChunks_runtime {α ε : Type} (oracle : Nat → Except ε (List α)) :
    ∀ (cs : List (List α)) (k : Nat) (m : String),
      (runChunks oracle k cs).result = .error (.runtime m) →
      m = retryFailureMsg (runChunks oracle k cs).leftover.length BATCH_MAX_RETRIES ∧
      (runChunks oracle k cs).leftover ≠ [] := by
  intro cs
  induction cs with
  | nil => intro k m h; cases h
  | cons c cs ih =>
    intro k m h
    rw [runChunks] at h ⊢
    generalize hres : (processChunk oracle k c).result = res at h ⊢
    cases res with
    | error e =>
      have he : e = .runtime m :=
        Except.error.inj (show Except.error e = Except.error (BatchErr.runtime m) from h)
      subst he
      exact chunkLoopAux_runtime oracle BATCH_MAX_RETRIES k c 0 m hres
    | ok u => exact ih _ m h

theorem batch_write_ok_leftover {α ε : Type} (oracle : Nat → Except ε (List α))
    (put_requests delete_requests : List α)
    (h : (batch_write oracle put_requests delete_requests).result = .ok ()) :
    (batch_write oracle put_requests delete_requests).leftover = [] := by
  rw [batch_write] at h ⊢
  by_cases he : (put_requests ++ delete_requests).isEmpty
  · simp [he]
  · rw [if_neg he] at h ⊢
    exact runChunks_ok_leftover oracle _ _ h

theorem batch_write_runtime {α ε : Type} (oracle : Nat → Except ε (List α))
    (put_requests delete_requests : List α) (m : String)
    (h : (batch_write oracle put_requests delete_requests).result = .error (.runtime m)) :
    m = retryFailureMsg (batch_write oracle put_requests delete_requests).leftover.length
      BATCH_MAX_RETRIES ∧
    (batch_write oracle put_requests delete_requests).leftover ≠ [] := by
  rw [batch_write] at h ⊢
  by_cases he : (put_requests ++ delete_requests).isEmpty
  · rw [if_pos he] at h
    cases h
  · rw [if_neg he] at h ⊢
    exact runChunks_runtime oracle _ _ m h


/-! ## Lemmas for transact_get response decoding -/

theorem decodeResponses_spec {fparse : String → Option flt} :
    ∀ {rs : List (Option (List (String × AV)))} {out : List (Option (List (String × NV flt)))},
      decodeResponses fparse rs = .ok out →
      out.length = rs.length ∧
      (∀ (i : Nat), rs[i]? = some none → out[i]? = some none) ∧
      (∀ (i : Nat) (item : List (String × AV)), rs[i]? = some (some item) →
        ∃ d, avKvsToPy fparse item = .ok d ∧ out[i]? = some (some d)) := by
  intro rs
  induction rs with
  | nil =>
    intro out h
    obtain rfl : ([] : List (Option (List (String × NV flt)))) = out := Except.ok.inj h
    refine ⟨rfl, ?_, ?_⟩
    · intro i h2
      simp at h2
    · intro i item h2
      simp at h2
  | cons r rest ih =>
    intro out h
    cases r with
    | none =>
      rw [decodeResponses] at h
      rcases hrest : decodeResponses fparse rest with e | ds
      · rw [hrest] at h
        cases h
      · rw [hrest] at h
        obtain rfl : (none :: ds : List (Option (List (String × NV flt)))) = out :=
          Except.ok.inj (show Except.ok (none :: ds) = Except.ok out from h)
        obtain ⟨hl, hn, hs⟩ := ih hrest
        refine ⟨by simp [hl], ?_, ?_⟩
        · intro i h2
          cases i with
          | zero => simp
          | succ i =>
            simp only [List.getElem?_cons_succ] at h2 ⊢
            exact hn i h2
        · intro i item h2
          cases i with
          | zero => simp at h2
          | succ i =>
            simp only [List.getElem?_cons_succ] at h2 ⊢
            exact hs i item h2
    | some item0 =>
      rw [decodeResponses] at h
      obtain ⟨d, hd, h2⟩ := bind_eq_ok h
      obtain ⟨ds, hds, h3⟩ := bind_eq_ok h2
      obtain rfl : (some d :: ds : List (Option (List (String × NV flt)))) = out :=
        Except.ok.inj h3
      obtain ⟨hl, hn, hs⟩ := ih hds
      refine ⟨by simp [hl], ?_, ?_⟩
      · intro i h2
        cases i with
        | zero => simp at h2
        | succ i =>
          simp only [List.getElem?_cons_succ] at h2 ⊢
          exact hn i h2
      · intro i item h2
        cases i with
        | zero =>
          simp at h2
          subst h2
          exact ⟨d, hd, by simp⟩
        | succ i =>
          simp only [List.getElem?_cons_succ] at h2 ⊢
          exact hs i item h2

/-! ## Lemmas for the SET expression builder and placeholder merging -/

theorem buildSetAux_spec {fstr : flt → String} :
    ∀ {u : List (String × NV flt)} {i : Nat} {parts : List String}
      {names : List (String × String)} {values : List (String × AV)},
      buildSetAux fstr i u = .ok (parts, names, values) →
      parts.length = u.length ∧ names.length = u.length ∧ values.length = u.length ∧
      ∀ (j : Nat) (x : String × NV flt), u[j]? = some x →
        parts[j]? = some ("#f" ++ toString (i + j) ++ " = :v" ++ toString (i + j)) ∧
        names[j]? = some ("#f" ++ toString (i + j), x.1) ∧
        ∃ a, py_to_attribute_value_direct fstr x.2 = .ok a ∧
          values[j]? = some ((":v" ++ toString (i + j)), a) := by
  intro u
  induction u with
  | nil =>
    intro i parts names values h
    rw [buildSetAux] at h
    simp only [Except.ok.injEq, Prod.mk.injEq] at h
    obtain ⟨rfl, rfl, rfl⟩ := h
    refine ⟨rfl, rfl, rfl, ?_⟩
    intro j x hx
    simp at hx
  | cons p ps ih =>
    intro i parts names values h
    obtain ⟨field, v⟩ := p
    rw [buildSetAux] at h
    obtain ⟨a, ha, h2⟩ := bind_eq_ok h
    obtain ⟨triple, htriple, h3⟩ := bind_eq_ok h2
    obtain ⟨parts0, names0, values0⟩ := triple
    simp only [Except.ok.injEq, Prod.mk.injEq] at h3
    obtain ⟨h31, h32, h33⟩ := h3
    subst h31
    subst h32
    subst h33
    obtain ⟨hl1, hl2, hl3, hidx⟩ := ih htriple
    refine ⟨by simp [hl1], by simp [hl2], by simp [hl3], ?_⟩
    intro j x hx
    cases j with
    | zero =>
      simp at hx
      subst hx
      refine ⟨by simp, by simp, ⟨a, ha, by simp⟩⟩
    | succ j =>
      simp only [List.getElem?_cons_succ] at hx ⊢
      have harith : i + (j + 1) = (i + 1) + j := by omega
      rw [harith]
      exact hidx j x hx

theorem lookup_eq_none_of_not_mem {β : Type} :
    ∀ {l : List (String × β)} {k : String},
      k ∉ l.map Prod.fst → l.lookup k = none := by
  intro l
  induction l with
  | nil => intro k _; rfl
  | cons p ps ih =>
    intro k h
    obtain ⟨pk, pv⟩ := p
    simp only [List.map_cons, List.mem_cons] at h
    push_neg at h
    have hk : (k == pk) = false := beq_eq_false_iff_ne.mpr h.1
    rw [List.lookup, hk]
    exact ih h.2

theorem insertAllFn_lookup_none {β : Type} :
    ∀ {user : List (String × β)} {k : String},
      user.lookup k = none → ∀ (base : String → Option β),
      insertAllFn base user k = base k := by
  intro user
  induction user with
  | nil => intro k _ base; rfl
  | cons p ps ih =>
    intro k h base
    obtain ⟨pk, pv⟩ := p
    rw [List.lookup] at h
    rcases hk : (k == pk) with _ | _
    · rw [hk] at h
      rw [insertAllFn, List.foldl_cons]
      have := ih h (fun q => if q = pk then some pv else base q)
      rw [insertAllFn] at this
      rw [this]
      simp [beq_eq_false_iff_ne.mp hk]
    · rw [hk] at h
      cases h
  
theorem insertAllFn_lookup_some {β : Type} :
    ∀ {user : List (String × β)},
      (user.map Prod.fst).Nodup → ∀ {k : String} {v : β},
      user.lookup k = some v → ∀ (base : String → Option β),
      insertAllFn base user k = some v := by
  intro user
  induction user with
  | nil => intro _ k v h; cases h
  | cons p ps ih =>
    intro hnd k v h base
    obtain ⟨pk, pv⟩ := p
    simp only [List.map_cons, List.nodup_cons] at hnd
    rw [List.lookup] at h
    rw [insertAllFn, List.foldl_cons]
    rcases hk : (k == pk) with _ | _
    · rw [hk] at h
      have := ih hnd.2 h (fun q => if q = pk then some pv else base q)
      rw [insertAllFn] at this
      exact this
    · rw [hk] at h
      have hkeq : k = pk := by simpa using hk
      subst hkeq
      obtain rfl : pv = v := Option.some.inj h
      have hnone : ps.lookup k = none := lookup_eq_none_of_not_mem hnd.1
      have := insertAllFn_lookup_none hnone (fun q => if q = k then some pv else base q)
      rw [insertAllFn] at this
      rw [this]
      simp

/-! ## Lemmas for the error classifier -/

theorem map_common_service_code_ccf {message : Option String} :
    (map_common_service_code (some "ConditionalCheckFailedException") message :
      Option (RaisedErr flt)) = none := by
  rfl

theorem map_dynamodb_code_ccf {message : Option String} {display : String}
    {table : Option String} :
    (map_dynamodb_code (some "ConditionalCheckFailedException") message display table :
        RaisedErr flt) =
      ⟨.conditionalCheckFailed, "The condition expression evaluated to false", none⟩ := by
  rfl


/-! ## Inversion lemmas for the set encoder -/

theorem castsToNumber_not_str {x : NV flt} (h : castsToNumber x = true) :
    nvIsStr x = false := by
  cases x <;> simp_all [castsToNumber, nvIsStr]

theorem exceptMap_eq_error {ε α β : Type} {x : Except ε α} {g : α → β} {e : ε}
    (h : x.map g = .error e) : x = .error e := by
  rcases x with e0 | a
  · obtain rfl : e0 = e := Except.error.inj (show Except.error e0 = Except.error e from h)
    rfl
  · exact Except.noConfusion (show Except.ok (g a) = Except.error e from h)

theorem exceptMap_eq_ok {ε α β : Type} {x : Except ε α} {g : α → β} {b : β}
    (h : x.map g = .ok b) : ∃ a, x = .ok a ∧ g a = b := by
  rcases x with e0 | a
  · exact Except.noConfusion (show Except.error e0 = Except.ok b from h)
  · exact ⟨a, rfl, Except.ok.inj (show Except.ok (g a) = Except.ok b from h)⟩

theorem mapOrErr_error_eq {β : Type} {f : NV flt → Option β} {e : PyErr} :
    ∀ {l : List (NV flt)} {e' : PyErr}, mapOrErr f e l = .error e' → e' = e := by
  intro l
  induction l with
  | nil => intro e' h; cases h
  | cons a as ih =>
    intro e' h
    rw [mapOrErr] at h
    rcases hfa : f a with _ | y
    · rw [hfa] at h
      exact (Except.error.inj h).symm
    · rw [hfa] at h
      rcases hrest : mapOrErr f e as with e2 | ys
      · rw [hrest] at h
        exact ih (hrest.trans (congrArg Except.error (Except.error.inj h)))
      · rw [hrest] at h
        cases h

theorem convert_set_cons (fstr : flt → String) (first : NV flt) (rest : List (NV flt)) :
    convert_set_direct fstr (first :: rest) =
      (if nvIsStr first then
        (mapOrErr nvStrVal ⟨.typeError, "String set must contain only strings"⟩
          (first :: rest)).map .Ss
      else if castsToNumber first then
        (mapOrErr (nvNumText fstr) ⟨.typeError, "Number set must contain only numbers"⟩
          (first :: rest)).map .Ns
      else if nvIsBytes first then
        (mapOrErr nvBytesVal ⟨.typeError, "Binary set must contain only bytes"⟩
          (first :: rest)).map .Bs
      else
        .error ⟨.typeError,
          "Unsupported set element type: " ++ nvTypeName first ++
            ". Sets can only contain strings, numbers, or bytes"⟩) := rfl

theorem convert_set_ns_inv {fstr : flt → String} {elems : List (NV flt)} {ns : List String}
    (h : convert_set_direct fstr elems = .ok (.Ns ns)) :
    mapOrErr (nvNumText fstr) ⟨.typeError, "Number set must contain only numbers"⟩ elems =
      .ok ns := by
  cases elems with
  | nil => cases h
  | cons first rest =>
    rw [convert_set_cons] at h
    by_cases hs : nvIsStr first
    · rw [if_pos hs] at h
      obtain ⟨ss, _, hss⟩ := exceptMap_eq_ok h
      cases hss
    · rw [if_neg hs] at h
      by_cases hn : castsToNumber first
      · rw [if_pos hn] at h
        obtain ⟨ns0, hok, hns⟩ := exceptMap_eq_ok h
        obtain rfl : ns0 = ns := AV.Ns.inj hns
        exact hok
      · rw [if_neg hn] at h
        by_cases hb : nvIsBytes first
        · rw [if_pos hb] at h
          obtain ⟨bs, _, hbs⟩ := exceptMap_eq_ok h
          cases hbs
        · rw [if_neg hb] at h
          cases h

/-! ## Claim theorems: value codec -/

/-- C1 (amended): decoding the encoding of a supported native value v
returns v, provided every integer in v (at top level, nested in lists,
maps, or as a number-set element) lies within the i64 range
[-2^63, 2^63 - 1].  goodNV is exactly the claim's supportedness
condition (non-empty homogeneous sets of strings / numbers / bytes)
plus that integer-range restriction; the abstract float model carries
the claim's exclusion of int/float-ambiguous decimal texts. -/
theorem claim1_roundtrip_within_i64 {flt : Type} (fstr : flt → String)
    (fparse : String → Option flt) (hL : FloatCodecLawful fstr fparse)
    (v : NV flt) (hv : goodNV v = true) :
    (py_to_attribute_value_direct fstr v).bind (attribute_value_to_py_direct fparse) =
      .ok v :=
  roundtrip_good hL v hv

/-- C1 counterexample: the integer 2^63 is a supported value whose
decimal text has no int/float ambiguity, yet decode(encode(2^63)) is an
Invalid-number error, not the value itself. -/
theorem claim1_counterexample :
    (py_to_attribute_value_direct unitFloatStr (NV.int (2 ^ 63))).bind
      (attribute_value_to_py_direct unitFloatParse) ≠ .ok (NV.int (2 ^ 63)) := by
  intro h
  rw [show (py_to_attribute_value_direct unitFloatStr (NV.int (2 ^ 63))).bind
      (attribute_value_to_py_direct unitFloatParse) =
      .error ⟨.valueError, "Invalid number: " ++ intDecText (2 ^ 63)⟩ from rfl] at h
  exact Except.noConfusion h

/-- C1 witness: the amended round-trip at a concrete composite value. -/
theorem claim1_witness :
    (py_to_attribute_value_direct unitFloatStr
        (NV.map [("a", NV.list [NV.int 5, NV.str "x", NV.bool true, NV.pynone,
          NV.bytes [1, 2]]), ("s", NV.set [NV.int 1, NV.float ()])])).bind
      (attribute_value_to_py_direct unitFloatParse) =
      .ok (NV.map [("a", NV.list [NV.int 5, NV.str "x", NV.bool true, NV.pynone,
          NV.bytes [1, 2]]), ("s", NV.set [NV.int 1, NV.float ()])]) :=
  claim1_roundtrip_within_i64 unitFloatStr unitFloatParse
    ⟨fun f => by cases f; rfl, fun f => by cases f; rfl⟩ _ (by decide)

/-- C2 (amended): a boolean encodes to the Boolean variant at top level
and pointwise inside lists and maps; but as a set element it passes the
integer cast (bool is a subclass of int), so a set dispatched as a
number set turns each boolean element into the NumberSet element
str(bool) ("True"/"False"). -/
theorem claim2_bool_marshalling {flt : Type} (fstr : flt → String) :
    (∀ b : Bool, py_to_attribute_value_direct fstr (NV.bool b) = .ok (.Bool b)) ∧
    (∀ (xs : List (NV flt)) (ys : List AV), pyListToAv fstr xs = .ok ys →
      ∀ (i : Nat) (b : Bool), xs[i]? = some (.bool b) → ys[i]? = some (.Bool b)) ∧
    (∀ (kvs : List (String × NV flt)) (ys : List (String × AV)),
      pyKvsToAv fstr kvs = .ok ys →
      ∀ (i : Nat) (k : String) (b : Bool), kvs[i]? = some (k, .bool b) →
        ys[i]? = some (k, .Bool b)) ∧
    (∀ (elems : List (NV flt)) (ns : List String),
      convert_set_direct fstr elems = .ok (.Ns ns) →
      ∀ (i : Nat) (b : Bool), elems[i]? = some (.bool b) → ns[i]? = some (pyBoolText b)) := by
  refine ⟨fun b => rfl, ?_, ?_, ?_⟩
  · intro xs ys h i b hx
    obtain ⟨a, ha, hy⟩ := pyListToAv_index h i _ hx
    rw [py_to_attribute_value_direct] at ha
    obtain rfl : AV.Bool b = a := Except.ok.inj ha
    exact hy
  · intro kvs ys h i k b hx
    obtain ⟨a, ha, hy⟩ := pyKvsToAv_index h i k _ hx
    rw [py_to_attribute_value_direct] at ha
    obtain rfl : AV.Bool b = a := Except.ok.inj ha
    exact hy
  · intro elems ns h i b hx
    obtain ⟨y, hy1, hy2⟩ := mapOrErr_index (convert_set_ns_inv h) i _ hx
    obtain rfl : pyBoolText b = y :=
      Option.some.inj (show some (pyBoolText b) = some y from hy1)
    exact hy2

/-- C2 counterexample: the singleton set of True encodes successfully to
a NumberSet whose element is the text "True" -- a boolean became a
NumberSet element, contradicting the claim for set elements. -/
theorem claim2_counterexample :
    py_to_attribute_value_direct unitFloatStr (NV.set [NV.bool true]) =
      .ok (.Ns ["True"]) := rfl

/-- C2 witness: the amended statement applied at concrete inputs. -/
theorem claim2_witness :
    ([AV.N "1", AV.Bool true] : List AV)[1]? = some (AV.Bool true) ∧
    (["True"] : List String)[0]? = some (pyBoolText true) :=
  ⟨(claim2_bool_marshalling unitFloatStr).2.1 [NV.int 1, NV.bool true]
      [AV.N "1", AV.Bool true] rfl 1 true rfl,
    (claim2_bool_marshalling unitFloatStr).2.2.2 [NV.bool true] ["True"] rfl 0 true rfl⟩

/-- C3 (amended): encoding a set fails iff the set is empty or not
homogeneous, where homogeneity classes are strings, number-castable
values (ints, floats, and also bools, which pass the integer cast), and
bytes.  An empty set fails with a ValueError; a non-empty inhomogeneous
set fails with a TypeError; a non-empty homogeneous set succeeds with
the corresponding StringSet / NumberSet / BinarySet variant. -/
theorem claim3_set_encoding {flt : Type} (fstr : flt → String) (elems : List (NV flt)) :
    (elems = [] →
      convert_set_direct fstr elems =
        .error ⟨.valueError, "DynamoDB does not support empty sets"⟩) ∧
    (elems ≠ [] →
      ((∃ av, convert_set_direct fstr elems = .ok av) ↔
        (elems.all nvIsStr = true ∨ elems.all castsToNumber = true ∨
          elems.all nvIsBytes = true))) ∧
    (elems ≠ [] → ∀ e, convert_set_direct fstr elems = .error e → e.kind = .typeError) ∧
    (elems ≠ [] → elems.all nvIsStr = true →
      ∃ ss, convert_set_direct fstr elems = .ok (.Ss ss)) ∧
    (elems ≠ [] → elems.all castsToNumber = true →
      ∃ ns, convert_set_direct fstr elems = .ok (.Ns ns)) ∧
    (elems ≠ [] → elems.all nvIsBytes = true →
      ∃ bs, convert_set_direct fstr elems = .ok (.Bs bs)) := by
  cases elems with
  | nil =>
    refine ⟨fun _ => rfl, fun h => absurd rfl h, fun h => absurd rfl h,
      fun h => absurd rfl h, fun h => absurd rfl h, fun h => absurd rfl h⟩
  | cons first rest =>
    have hstr_case : (first :: rest).all nvIsStr = true →
        ∃ ss, convert_set_direct fstr (first :: rest) = .ok (.Ss ss) := by
      intro hall
      have hfirst : nvIsStr first = true := by
        rw [List.all_cons, Bool.and_eq_true] at hall
        exact hall.1
      obtain ⟨ss, hss⟩ := mapOrErr_all_ok
        (e := (⟨.typeError, "String set must contain only strings"⟩ : PyErr))
        (f := nvStrVal)
        (fun x hx => by rw [nvStrVal_isSome]; exact List.all_eq_true.mp hall x hx)
      exact ⟨ss, by rw [convert_set_cons, if_pos hfirst, hss]; rfl⟩
    have hnum_case : (first :: rest).all castsToNumber = true →
        ∃ ns, convert_set_direct fstr (first :: rest) = .ok (.Ns ns) := by
      intro hall
      have hfirst : castsToNumber first = true := by
        rw [List.all_cons, Bool.and_eq_true] at hall
        exact hall.1
      obtain ⟨ns, hns⟩ := mapOrErr_all_ok
        (e := (⟨.typeError, "Number set must contain only numbers"⟩ : PyErr))
        (f := nvNumText fstr)
        (fun x hx => by rw [nvNumText_isSome]; exact List.all_eq_true.mp hall x hx)
      refine ⟨ns, ?_⟩
      rw [convert_set_cons, if_neg (by simp [castsToNumber_not_str hfirst]),
        if_pos hfirst, hns]
      rfl
    have hbytes_case : (first :: rest).all nvIsBytes = true →
        ∃ bs, convert_set_direct fstr (first :: rest) = .ok (.Bs bs) := by
      intro hall
      have hfirst : nvIsBytes first = true := by
        rw [List.all_cons, Bool.and_eq_true] at hall
        exact hall.1
      obtain ⟨bs, hbs⟩ := mapOrErr_all_ok
        (e := (⟨.typeError, "Binary set must contain only bytes"⟩ : PyErr))
        (f := nvBytesVal)
        (fun x hx => by rw [nvBytesVal_isSome]; exact List.all_eq_true.mp hall x hx)
      refine ⟨bs, ?_⟩
      rw [convert_set_cons, if_neg (by simp [nvIsBytes_not_str hfirst]),
        if_neg (by simp [nvIsBytes_not_num hfirst]), if_pos hfirst, hbs]
      rfl
    refine ⟨fun h => List.noConfusion h, fun _ => ⟨?_, ?_⟩, ?_, fun _ => hstr_case,
      fun _ => hnum_case, fun _ => hbytes_case⟩
    · rintro ⟨av, hav⟩
      rw [convert_set_cons] at hav
      by_cases hs : nvIsStr first
      · rw [if_pos hs] at hav
        obtain ⟨ss, hok, _⟩ := exceptMap_eq_ok hav
        exact Or.inl (List.all_eq_true.mpr fun x hx => by
          rw [← nvStrVal_isSome]
          exact mapOrErr_ok_all hok x hx)
      · rw [if_neg hs] at hav
        by_cases hn : castsToNumber first
        · rw [if_pos hn] at hav
          obtain ⟨ns, hok, _⟩ := exceptMap_eq_ok hav
          exact Or.inr (Or.inl (List.all_eq_true.mpr fun x hx => by
            rw [← @nvNumText_isSome flt fstr x]
            exact mapOrErr_ok_all hok x hx))
        · rw [if_neg hn] at hav
          by_cases hb : nvIsBytes first
          · rw [if_pos hb] at hav
            obtain ⟨bs, hok, _⟩ := exceptMap_eq_ok hav
            exact Or.inr (Or.inr (List.all_eq_true.mpr fun x hx => by
              rw [← nvBytesVal_isSome]
              exact mapOrErr_ok_all hok x hx))
          · rw [if_neg hb] at hav
            cases hav
    · rintro (hall | hall | hall)
      · obtain ⟨ss, h⟩ := hstr_case hall
        exact ⟨.Ss ss, h⟩
      · obtain ⟨ns, h⟩ := hnum_case hall
        exact ⟨.Ns ns, h⟩
      · obtain ⟨bs, h⟩ := hbytes_case hall
        exact ⟨.Bs bs, h⟩
    · intro _ e he
      rw [convert_set_cons] at he
      by_cases hs : nvIsStr first
      · rw [if_pos hs] at he
        rw [mapOrErr_error_eq (exceptMap_eq_error he)]
      · rw [if_neg hs] at he
        by_cases hn : castsToNumber first
        · rw [if_pos hn] at he
          rw [mapOrErr_error_eq (exceptMap_eq_error he)]
        · rw [if_neg hn] at he
          by_cases hb : nvIsBytes first
          · rw [if_pos hb] at he
            rw [mapOrErr_error_eq (exceptMap_eq_error he)]
          · rw [if_neg hb] at he
            obtain rfl : (⟨.typeError,
                "Unsupported set element type: " ++ nvTypeName first ++
                  ". Sets can only contain strings, numbers, or bytes"⟩ : PyErr) = e :=
              Except.error.inj he
            rfl

/-- C3 counterexample: the singleton set of the boolean True is not a
homogeneous set of strings, numbers, or bytes in the spec's sense, yet
the encoder does not raise: it produces a NumberSet. -/
theorem claim3_counterexample :
    spec_set_encodable ([NV.bool true] : List (NV Unit)) = false ∧
    convert_set_direct unitFloatStr [NV.bool true] = .ok (.Ns ["True"]) :=
  ⟨rfl, rfl⟩

/-- C3 witness: the amended statement applied at concrete sets. -/
theorem claim3_witness :
    convert_set_direct unitFloatStr ([] : List (NV Unit)) =
      .error ⟨.valueError, "DynamoDB does not support empty sets"⟩ ∧
    (∃ ss, convert_set_direct unitFloatStr [NV.str "a", NV.str "b"] = .ok (.Ss ss)) ∧
    (⟨.typeError, "Number set must contain only numbers"⟩ : PyErr).kind = .typeError :=
  ⟨(claim3_set_encoding unitFloatStr []).1 rfl,
    (claim3_set_encoding unitFloatStr [NV.str "a", NV.str "b"]).2.2.2.1
      (by simp) (by decide),
    (claim3_set_encoding unitFloatStr [NV.int 1, NV.str "x"]).2.2.1
      (by simp) ⟨.typeError, "Number set must contain only numbers"⟩ (by rfl)⟩

/-- C10: the decoder parses marker-free number text as a signed 64-bit
integer, so encoding accepts every integer (as its decimal text) but
decoding an integer-formatted text outside [-2^63, 2^63 - 1] raises an
Invalid-number ValueError, both as a Number value and as a NumberSet
element, and the encode/decode round-trip fails exactly then. -/
theorem claim10_i64_decode_boundary {flt : Type} (fstr : flt → String)
    (fparse : String → Option flt) :
    (∀ n : Int, py_to_attribute_value_direct fstr (NV.int n) = .ok (.N (intDecText n))) ∧
    (∀ n : Int, (-(2 ^ 63) ≤ n ∧ n ≤ 2 ^ 63 - 1) →
      attribute_value_to_py_direct fparse (.N (intDecText n)) = .ok (.int n)) ∧
    (∀ n : Int, ¬(-(2 ^ 63) ≤ n ∧ n ≤ 2 ^ 63 - 1) →
      attribute_value_to_py_direct fparse (.N (intDecText n)) =
        .error ⟨.valueError, "Invalid number: " ++ intDecText n⟩) ∧
    (∀ n : Int, ¬(-(2 ^ 63) ≤ n ∧ n ≤ 2 ^ 63 - 1) →
      (py_to_attribute_value_direct fstr (NV.int n)).bind
        (attribute_value_to_py_direct fparse) =
        .error ⟨.valueError, "Invalid number: " ++ intDecText n⟩) ∧
    (∀ n : Int, ¬(-(2 ^ 63) ≤ n ∧ n ≤ 2 ^ 63 - 1) →
      attribute_value_to_py_direct fparse (.Ns [intDecText n]) =
        .error ⟨.valueError, "Invalid number: " ++ intDecText n⟩) := by
  refine ⟨fun n => rfl, fun n h => ?_, fun n h => ?_, fun n h => ?_, fun n h => ?_⟩
  · rw [attribute_value_to_py_direct]
    exact decodeNumText_int_ok h
  · rw [attribute_value_to_py_direct]
    exact decodeNumText_int_fail h
  · show attribute_value_to_py_direct fparse (.N (intDecText n)) = _
    rw [attribute_value_to_py_direct]
    exact decodeNumText_int_fail h
  · rw [attribute_value_to_py_direct, decodeNsElems, decodeNumText_int_fail h]
    rfl

/-- C10 witness: the boundary behaviour at 2^63 and at 5. -/
theorem claim10_witness :
    attribute_value_to_py_direct unitFloatParse (.N (intDecText (2 ^ 63))) =
      .error ⟨.valueError, "Invalid number: " ++ intDecText (2 ^ 63)⟩ ∧
    attribute_value_to_py_direct unitFloatParse (.N (intDecText 5)) = .ok (NV.int 5) :=
  ⟨(claim10_i64_decode_boundary unitFloatStr unitFloatParse).2.2.1 (2 ^ 63) (by decide),
    (claim10_i64_decode_boundary unitFloatStr unitFloatParse).2.1 5 (by decide)⟩


/-! ## Claim theorems: batch write executor -/

theorem runChunks_cons_ok {α ε : Type} {oracle : Nat → Except ε (List α)}
    {k : Nat} {c : List α} {cs : List (List α)}
    (h : processChunk oracle k c = ⟨[c], [], .ok (), [], k + 1⟩) :
    runChunks oracle k (c :: cs) =
      ⟨[c] ++ (runChunks oracle (k + 1) cs).calls,
        [] ++ (runChunks oracle (k + 1) cs).delays,
        (runChunks oracle (k + 1) cs).result,
        (runChunks oracle (k + 1) cs).leftover⟩ := by
  rw [runChunks, h]

/-- C4: batch_write merges the put and delete requests into one ordered
list and splits it into chunks of at most 25, so 30 put-items make
exactly the two backend calls take 25 and drop 25; a backend-reported
non-empty unprocessed subset is resubmitted alone as the next call; the
backoff delay before attempt i+1 is 50 * 2^(1+i) milliseconds, strictly
increasing, with the attempt counter starting at 1; the attempts per
chunk are bounded by the retry budget 5; and an empty combined request
list is a no-op success with no backend call. -/
theorem claim4_batch_write_chunking {α ε : Type} (oracle : Nat → Except ε (List α)) :
    ((batch_write oracle ([] : List α) []).calls = [] ∧
      (batch_write oracle ([] : List α) []).result = .ok ()) ∧
    (∀ put_requests : List α, put_requests.length = 30 → (∀ k, oracle k = .ok []) →
      (batch_write oracle put_requests []).calls =
        [put_requests.take 25, put_requests.drop 25] ∧
      (put_requests.take 25).length = 25 ∧ (put_requests.drop 25).length = 5 ∧
      (batch_write oracle put_requests []).result = .ok ()) ∧
    (∀ (k : Nat) (chunk u : List α), chunk ≠ [] → oracle k = .ok u → u ≠ [] →
      (processChunk oracle k chunk).calls[0]? = some chunk ∧
      (processChunk oracle k chunk).calls[1]? = some u) ∧
    (∀ (k : Nat) (chunk : List α) (i x : Nat),
      (processChunk oracle k chunk).delays[i]? = some x → x = 50 * 2 ^ (1 + i)) ∧
    (∀ (k : Nat) (chunk : List α) (i j xi xj : Nat), i < j →
      (processChunk oracle k chunk).delays[i]? = some xi →
      (processChunk oracle k chunk).delays[j]? = some xj → xi < xj) ∧
    (∀ (k : Nat) (chunk : List α),
      (processChunk oracle k chunk).calls.length ≤ BATCH_MAX_RETRIES) := by
  refine ⟨⟨rfl, rfl⟩, ?_, ?_, ?_, ?_, ?_⟩
  · intro put_requests h30 hok
    obtain ⟨hchunks, ht, hd⟩ := chunksOf_split_30 h30
    have htne : put_requests.take 25 ≠ [] := by
      intro hh
      rw [hh] at ht
      simp at ht
    have hdne : put_requests.drop 25 ≠ [] := by
      intro hh
      rw [hh] at hd
      simp at hd
    have hne2 : (put_requests ++ ([] : List α)).isEmpty = false := by
      rw [List.append_nil]
      cases put_requests
      · simp at h30
      · rfl
    have hbw : batch_write oracle put_requests ([] : List α) =
        runChunks oracle 0 (chunksOf BATCH_WRITE_MAX_ITEMS (put_requests ++ [])) := by
      rw [batch_write]
      simp only [hne2, Bool.false_eq_true, if_false]
    have hrun : runChunks oracle 0 [put_requests.take 25, put_requests.drop 25] =
        ⟨[put_requests.take 25, put_requests.drop 25], [], .ok (), []⟩ := by
      rw [runChunks_cons_ok (processChunk_all_done oracle 0 htne (hok 0)),
        runChunks_cons_ok (processChunk_all_done oracle 1 hdne (hok 1))]
      rfl
    rw [hbw, List.append_nil]
    have hchunks25 : chunksOf BATCH_WRITE_MAX_ITEMS put_requests =
        [put_requests.take 25, put_requests.drop 25] := hchunks
    rw [hchunks25, hrun]
    exact ⟨rfl, ht, hd, rfl⟩
  · intro k chunk u hc ho hu
    have hp : chunk.isEmpty = false := by
      cases chunk
      · exact absurd rfl hc
      · rfl
    have hu2 : u.isEmpty = false := by
      cases u
      · exact absurd rfl hu
      · rfl
    constructor
    · exact chunkLoopAux_head_call oracle k 0 (by decide) hc
    · show (chunkLoopAux oracle (4 + 1) k chunk 0).calls[1]? = some u
      rw [chunkLoopAux_succ_retry hp ho hu2]
      simp only [List.getElem?_cons_succ]
      exact chunkLoopAux_head_call oracle (k + 1) 1 (by decide) hu
  · intro k chunk i x hx
    have := chunkLoopAux_delays_formula oracle BATCH_MAX_RETRIES k chunk 0 i x hx
    rw [this]
  · intro k chunk i j xi xj hij hi hj
    have hxi := chunkLoopAux_delays_formula oracle BATCH_MAX_RETRIES k chunk 0 i xi hi
    have hxj := chunkLoopAux_delays_formula oracle BATCH_MAX_RETRIES k chunk 0 j xj hj
    have hpow : (2 : Nat) ^ (0 + 1 + i) < 2 ^ (0 + 1 + j) :=
      Nat.pow_lt_pow_right (by norm_num) (by omega)
    rw [hxi, hxj]
    omega
  · intro k chunk
    exact chunkLoopAux_calls_length_le oracle BATCH_MAX_RETRIES k chunk 0

/-- C4 witness: the chunking and retry shape at concrete inputs: 30
items make exactly the calls take 25 and drop 25; with a backend that
reports [7] unprocessed, the second call is exactly [7]; the recorded
first delay is 100 ms = 50 * 2^1; and the calls per chunk stay within
the retry budget. -/
theorem claim4_witness :
    (batch_write (fun _ => Except.ok ([] : List Nat)) (List.range 30) ([] : List Nat)
        (ε := Unit)).calls = [(List.range 30).take 25, (List.range 30).drop 25] ∧
    (processChunk (fun _ => Except.ok ([7] : List Nat)) 0 [1] (ε := Unit)).calls[1]? =
      some [7] ∧
    (100 : Nat) = 50 * 2 ^ (1 + 0) ∧
    (processChunk (fun _ => Except.ok ([7] : List Nat)) 0 [1] (ε := Unit)).calls.length ≤
      BATCH_MAX_RETRIES :=
  ⟨((claim4_batch_write_chunking
        (fun _ => Except.ok ([] : List Nat) : Nat → Except Unit (List Nat))).2.1
      (List.range 30) (by decide) (fun _ => rfl)).1,
    ((claim4_batch_write_chunking
        (fun _ => Except.ok ([7] : List Nat) : Nat → Except Unit (List Nat))).2.2.1
      0 [1] [7] (by decide) rfl (by decide)).2,
    (claim4_batch_write_chunking
        (fun _ => Except.ok ([7] : List Nat) : Nat → Except Unit (List Nat))).2.2.2.1
      0 [1] 0 100 rfl,
    (claim4_batch_write_chunking
        (fun _ => Except.ok ([7] : List Nat) : Nat → Except Unit (List Nat))).2.2.2.2.2
      0 [1]⟩

/-- C5: if the retry budget is exhausted while the unprocessed set is
still non-empty, batch_write fails with the RuntimeError whose message
names exactly the number of remaining unprocessed items (and the retry
bound 5); it never returns success with items still pending, at the
chunk-loop level and at the whole batch_write level. -/
theorem claim5_batch_write_exhaustion {α ε : Type} (oracle : Nat → Except ε (List α)) :
    (∀ (fuel k : Nat) (pending : List α) (retries : Nat),
      (chunkLoopAux oracle fuel k pending retries).result = .ok () →
      (chunkLoopAux oracle fuel k pending retries).finalPending = []) ∧
    (∀ (put_requests delete_requests : List α),
      (batch_write oracle put_requests delete_requests).result = .ok () →
      (batch_write oracle put_requests delete_requests).leftover = []) ∧
    (∀ (put_requests delete_requests : List α) (m : String),
      (batch_write oracle put_requests delete_requests).result = .error (.runtime m) →
      m = retryFailureMsg
          (batch_write oracle put_requests delete_requests).leftover.length
          BATCH_MAX_RETRIES ∧
        (batch_write oracle put_requests delete_requests).leftover ≠ []) :=
  ⟨chunkLoopAux_ok_finalPending oracle,
    batch_write_ok_leftover oracle,
    batch_write_runtime oracle⟩

/-- C5 witness: a backend that always reports one unprocessed item
exhausts the 5 retries, and the raised message names the one remaining
item. -/
theorem claim5_witness :
    "Failed to process 1 items after 5 retries" =
      retryFailureMsg
        (batch_write (fun _ => Except.ok ([0] : List Nat)) [1] ([] : List Nat)
          (ε := Unit)).leftover.length BATCH_MAX_RETRIES ∧
    (batch_write (fun _ => Except.ok ([0] : List Nat)) [1] ([] : List Nat)
      (ε := Unit)).leftover ≠ [] :=
  (claim5_batch_write_exhaustion
      (fun _ => Except.ok ([0] : List Nat) : Nat → Except Unit (List Nat))).2.2
    [1] [] "Failed to process 1 items after 5 retries" rfl


/-! ## Claim theorems: transactions, update preparation, error mapping -/

/-- C6: transact_write and transact_get reject an operation list longer
than 100 locally, before building any sub-request and before any
backend call, with a ValueError naming the limit and the actual count;
a list of exactly 100 operations passes the size check and is submitted
to the backend in a single call. -/
theorem claim6_transaction_size_limit {flt : Type} (fstr : flt → String)
    (fparse : String → Option flt)
    (backendW : List TxWriteItem → Except PyErr Unit)
    (backendG : List TxGetItem → Except PyErr (List (Option (List (String × AV))))) :
    (∀ ops : List (TxOp flt), TRANSACTION_MAX_ITEMS < ops.length →
      (transact_write fstr backendW ops).backendCalls = [] ∧
      (transact_write fstr backendW ops).result =
        .error ⟨.valueError, txSizeMsg ops.length⟩) ∧
    (∀ (ops : List (TxOp flt)) (items : List TxWriteItem),
      ops.length = TRANSACTION_MAX_ITEMS →
      buildAll (build_transact_write_item fstr) ops = .ok items →
      (transact_write fstr backendW ops).backendCalls = [items] ∧
      (transact_write fstr backendW ops).result = backendW items) ∧
    (∀ gets : List (TxGetOp flt), TRANSACTION_MAX_ITEMS < gets.length →
      (transact_get fstr fparse backendG gets).backendCalls = [] ∧
      (transact_get fstr fparse backendG gets).result =
        .error ⟨.valueError, txSizeMsg gets.length⟩) ∧
    (∀ (gets : List (TxGetOp flt)) (items : List TxGetItem),
      gets.length = TRANSACTION_MAX_ITEMS →
      buildAll (build_transact_get_item fstr) gets = .ok items →
      (transact_get fstr fparse backendG gets).backendCalls = [items]) := by
  refine ⟨?_, ?_, ?_, ?_⟩
  · intro ops hlen
    have hne : ops.isEmpty = false := by
      cases ops
      · simp [TRANSACTION_MAX_ITEMS] at hlen
      · rfl
    have hview : transact_write fstr backendW ops =
        ⟨[], .error ⟨.valueError, txSizeMsg ops.length⟩⟩ := by
      rw [transact_write, if_neg (by simp [hne]), if_pos hlen]
    rw [hview]
    exact ⟨rfl, rfl⟩
  · intro ops items hlen hbuild
    have hne : ops.isEmpty = false := by
      cases ops
      · simp [TRANSACTION_MAX_ITEMS] at hlen
      · rfl
    have hview : transact_write fstr backendW ops = ⟨[items], backendW items⟩ := by
      rw [transact_write, if_neg (by simp [hne]), if_neg (by omega), hbuild]
    rw [hview]
    exact ⟨rfl, rfl⟩
  · intro gets hlen
    have hne : gets.isEmpty = false := by
      cases gets
      · simp [TRANSACTION_MAX_ITEMS] at hlen
      · rfl
    have hview : transact_get fstr fparse backendG gets =
        ⟨[], .error ⟨.valueError, txSizeMsg gets.length⟩⟩ := by
      rw [transact_get, if_neg (by simp [hne]), if_pos hlen]
    rw [hview]
    exact ⟨rfl, rfl⟩
  · intro gets items hlen hbuild
    have hne : gets.isEmpty = false := by
      cases gets
      · simp [TRANSACTION_MAX_ITEMS] at hlen
      · rfl
    have hview : (transact_get fstr fparse backendG gets).backendCalls =
        (match backendG items with
          | .error e => (⟨[items], .error e⟩ :
              TxLog (List TxGetItem) (List (Option (List (String × NV flt)))))
          | .ok responses => ⟨[items], decodeResponses fparse responses⟩).backendCalls := by
      rw [transact_get, if_neg (by simp [hne]), if_neg (by omega), hbuild]
    rw [hview]
    cases backendG items <;> rfl

set_option maxRecDepth 4000 in
/-- C6 witness: 101 operations are rejected locally with no backend
call; 100 are submitted. -/
theorem claim6_witness :
    (transact_write unitFloatStr (fun _ => Except.ok ())
        (List.replicate 101 (TxOp.put "t" [] none [] none))).backendCalls = [] ∧
    (transact_write unitFloatStr (fun _ => Except.ok ())
        (List.replicate 101 (TxOp.put "t" [] none [] none))).result =
      .error ⟨.valueError,
        txSizeMsg (List.replicate 101 ((TxOp.put "t" [] none [] none : TxOp Unit))).length⟩ ∧
    (transact_write unitFloatStr (fun _ => Except.ok ())
        (List.replicate 100 (TxOp.put "t" [] none [] none))).backendCalls =
      [List.replicate 100 (TxWriteItem.put "t" [] none [] [])] :=
  ⟨((claim6_transaction_size_limit unitFloatStr unitFloatParse (fun _ => Except.ok ())
        (fun _ => Except.ok [])).1
      (List.replicate 101 (TxOp.put "t" [] none [] none)) (by decide)).1,
    ((claim6_transaction_size_limit unitFloatStr unitFloatParse (fun _ => Except.ok ())
        (fun _ => Except.ok [])).1
      (List.replicate 101 (TxOp.put "t" [] none [] none)) (by decide)).2,
    ((claim6_transaction_size_limit unitFloatStr unitFloatParse (fun _ => Except.ok ())
        (fun _ => Except.ok [])).2.1
      (List.replicate 100 (TxOp.put "t" [] none [] none))
      (List.replicate 100 (TxWriteItem.put "t" [] none [] []))
      (by decide) rfl).1⟩

/-- C7: on a successful transact_get, the returned list has exactly one
entry per backend response, in order: an absent item stays an explicit
none marker at its original index, and a present item appears decoded
at its original index; with the backend contract of one response per
sub-request, the output has the same length and order as the request
list. -/
theorem claim7_transact_get_order {flt : Type} (fstr : flt → String)
    (fparse : String → Option flt)
    (backend : List TxGetItem → Except PyErr (List (Option (List (String × AV)))))
    (gets : List (TxGetOp flt)) (items : List TxGetItem)
    (responses : List (Option (List (String × AV))))
    (out : List (Option (List (String × NV flt))))
    (hne : gets ≠ []) (hlen : gets.length ≤ TRANSACTION_MAX_ITEMS)
    (hbuild : buildAll (build_transact_get_item fstr) gets = .ok items)
    (hback : backend items = .ok responses)
    (hdec : decodeResponses fparse responses = .ok out)
    (hcontract : responses.length = gets.length) :
    (transact_get fstr fparse backend gets).result = .ok out ∧
    out.length = gets.length ∧
    (∀ (i : Nat), responses[i]? = some none → out[i]? = some none) ∧
    (∀ (i : Nat) (item : List (String × AV)), responses[i]? = some (some item) →
      ∃ d, avKvsToPy fparse item = .ok d ∧ out[i]? = some (some d)) := by
  obtain ⟨hl, hn, hs⟩ := decodeResponses_spec hdec
  have hne2 : gets.isEmpty = false := by
    cases gets
    · exact absurd rfl hne
    · rfl
  have h1 : transact_get fstr fparse backend gets =
      (match backend items with
        | .error e => (⟨[items], .error e⟩ :
            TxLog (List TxGetItem) (List (Option (List (String × NV flt)))))
        | .ok responses => ⟨[items], decodeResponses fparse responses⟩) := by
    rw [transact_get, if_neg (by simp [hne2]), if_neg (by omega), hbuild]
  have hview : transact_get fstr fparse backend gets =
      ⟨[items], decodeResponses fparse responses⟩ := by
    rw [h1, hback]
  refine ⟨?_, by omega, hn, hs⟩
  rw [hview]
  exact hdec

/-- C7 witness: a two-request transaction where the second item is
absent server-side yields a two-element list with an explicit none at
index 1. -/
theorem claim7_witness :
    (transact_get unitFloatStr unitFloatParse
        (fun _ => Except.ok [some [("a", AV.S "x")], none])
        [TxGetOp.get "t" [("pk", NV.str "1")] none [],
          TxGetOp.get "t" [("pk", NV.str "2")] none []]).result =
      .ok [some [("a", NV.str "x")], none] ∧
    ([some [("a", NV.str "x")], none] :
      List (Option (List (String × NV Unit)))).length = 2 :=
  ⟨(claim7_transact_get_order unitFloatStr unitFloatParse
      (fun _ => Except.ok [some [("a", AV.S "x")], none])
      [TxGetOp.get "t" [("pk", NV.str "1")] none [],
        TxGetOp.get "t" [("pk", NV.str "2")] none []]
      [TxGetItem.get "t" [("pk", AV.S "1")] none [],
        TxGetItem.get "t" [("pk", AV.S "2")] none []]
      [some [("a", AV.S "x")], none]
      [some [("a", NV.str "x")], none]
      (by simp) (by decide) rfl rfl rfl rfl).1,
    ((claim7_transact_get_order unitFloatStr unitFloatParse
      (fun _ => Except.ok [some [("a", AV.S "x")], none])
      [TxGetOp.get "t" [("pk", NV.str "1")] none [],
        TxGetOp.get "t" [("pk", NV.str "2")] none []]
      [TxGetItem.get "t" [("pk", AV.S "1")] none [],
        TxGetItem.get "t" [("pk", AV.S "2")] none []]
      [some [("a", AV.S "x")], none]
      [some [("a", NV.str "x")], none]
      (by simp) (by decide) rfl rfl rfl rfl).2.1 : _)⟩

/-- C8: update with neither a field-update mapping nor a raw update
expression fails with a ValueError before any backend call; a supplied
mapping is compiled into one SET clause with positional placeholders
"#fi = :vi"; and caller-supplied placeholder entries overwrite
auto-generated ones on key collision (for both the name and the value
maps). -/
theorem claim8_update_validation {flt : Type} (fstr : flt → String)
    (backend : PreparedUpdateItem → Except PyErr Unit) :
    (∀ (table : String) (key : List (String × NV flt)) (dk : List (String × AV))
      (condition_expression : Option String)
      (expression_attribute_names : Option (List (String × String)))
      (expression_attribute_values : Option (List (String × NV flt)))
      (rvoccf : Bool) (return_values : Option String),
      pyKvsToAv fstr key = .ok dk →
      update_item fstr backend table key none none condition_expression
          expression_attribute_names expression_attribute_values rvoccf return_values =
        ⟨[], .error ⟨.valueError,
          "Either 'updates' or 'update_expression' must be provided"⟩⟩) ∧
    (∀ (updates : List (String × NV flt)) (parts : List String)
      (names : List (String × String)) (values : List (String × AV)),
      buildSetAux fstr 0 updates = .ok (parts, names, values) →
      build_set_expression fstr updates =
        .ok ("SET " ++ String.intercalate ", " parts, names, values) ∧
      ∀ (j : Nat) (x : String × NV flt), updates[j]? = some x →
        parts[j]? = some ("#f" ++ toString j ++ " = :v" ++ toString j) ∧
        names[j]? = some ("#f" ++ toString j, x.1) ∧
        ∃ a, py_to_attribute_value_direct fstr x.2 = .ok a ∧
          values[j]? = some ((":v" ++ toString j), a)) ∧
    (∀ (base : String → Option String) (user : List (String × String))
      (k : String) (v : String),
      (user.map Prod.fst).Nodup → user.lookup k = some v →
      insertAllFn base user k = some v) ∧
    (∀ (base : String → Option AV) (user : List (String × AV))
      (k : String) (v : AV),
      (user.map Prod.fst).Nodup → user.lookup k = some v →
      insertAllFn base user k = some v) ∧
    (∀ (table : String) (key : List (String × NV flt)) (dk : List (String × AV))
      (updates : List (String × NV flt)) (expr : Option String)
      (parts : List String) (names0 : List (String × String))
      (values0 : List (String × AV)) (cond : Option String)
      (userNames : List (String × String)) (rvoccf : Bool),
      pyKvsToAv fstr key = .ok dk →
      buildSetAux fstr 0 updates = .ok (parts, names0, values0) →
      prepare_update_item fstr table key (some updates) expr cond (some userNames)
          none rvoccf none =
        .ok ⟨table, dk, "SET " ++ String.intercalate ", " parts, cond,
          insertAllFn (assocFn names0) userNames, assocFn values0, rvoccf, none⟩) := by
  refine ⟨?_, ?_, ?_, ?_, ?_⟩
  · intro table key dk cond names vals rvoccf rv hkey
    have hprep : prepare_update_item fstr table key none none cond names vals rvoccf rv =
        .error ⟨.valueError, "Either 'updates' or 'update_expression' must be provided"⟩ := by
      rw [prepare_update_item, hkey]
      rfl
    rw [update_item, hprep]
  · intro updates parts names values hbuild
    obtain ⟨_, _, _, hidx⟩ := buildSetAux_spec hbuild
    constructor
    · rw [build_set_expression, hbuild]
      rfl
    · intro j x hx
      have := hidx j x hx
      simpa using this
  · intro base user k v hnd hlook
    exact insertAllFn_lookup_some hnd hlook base
  · intro base user k v hnd hlook
    exact insertAllFn_lookup_some hnd hlook base
  · intro table key dk updates expr parts names0 values0 cond userNames rvoccf hkey hbuild
    have hb : build_set_expression fstr updates =
        .ok ("SET " ++ String.intercalate ", " parts, names0, values0) := by
      rw [build_set_expression, hbuild]
      rfl
    rw [prepare_update_item, hkey]
    simp only [hb]
    rfl

/-- C8 witness: the validation failure, the generated SET clause, and
caller precedence at concrete inputs. -/
theorem claim8_witness :
    update_item unitFloatStr (fun _ => Except.ok ()) "t" [("pk", NV.str "1")]
        none none none none none false none =
      ⟨[], .error ⟨.valueError,
        "Either 'updates' or 'update_expression' must be provided"⟩⟩ ∧
    build_set_expression unitFloatStr [("field", NV.int 1)] =
      .ok ("SET " ++ String.intercalate ", " ["#f0 = :v0"], [("#f0", "field")],
        [(":v0", AV.N (intDecText 1))]) ∧
    insertAllFn (assocFn [("#f0", "auto")]) [("#f0", "user")] "#f0" = some "user" :=
  ⟨(claim8_update_validation unitFloatStr (fun _ => Except.ok ())).1
      "t" [("pk", NV.str "1")] [("pk", AV.S "1")] none none none false none rfl,
    ((claim8_update_validation unitFloatStr (fun _ => Except.ok ())).2.1
      [("field", NV.int 1)] ["#f0 = :v0"] [("#f0", "field")]
      [(":v0", AV.N (intDecText 1))] rfl).1,
    (claim8_update_validation unitFloatStr (fun _ => Except.ok ())).2.2.1
      (assocFn [("#f0", "auto")]) [("#f0", "user")] "#f0" "user"
      (by simp) rfl⟩

/-- C9 (amended): a ConditionalCheckFailedException service error
always raises the ConditionalCheckFailedException category on the
update/delete error path; when the backend's structured error payload
carries the conflicting item and that item decodes successfully, the
decoded item is attached to the raised exception; when decoding the
supplied item fails, the same category is raised but with no item
attached; and the raised error is computed from the backend error and
table alone, independent of any requested return mode. -/
theorem claim9_condition_check_item {flt : Type} (fparse : String → Option flt) :
    (∀ (message : Option String) (display : String)
      (payload : Option (List (String × AV))) (table : Option String),
      (update_error_for fparse
        (.serviceError (some "ConditionalCheckFailedException") message display payload)
        table).kind = .conditionalCheckFailed) ∧
    (∀ (message : Option String) (display : String) (item : List (String × AV))
      (d : List (String × NV flt)) (table : Option String),
      avKvsToPy fparse item = .ok d →
      (update_error_for fparse
        (.serviceError (some "ConditionalCheckFailedException") message display (some item))
        table).item = some d) ∧
    (∀ (message : Option String) (display : String) (item : List (String × AV))
      (e2 : PyErr) (table : Option String),
      avKvsToPy fparse item = .error e2 →
      (update_error_for fparse
        (.serviceError (some "ConditionalCheckFailedException") message display (some item))
        table).item = none) ∧
    (∀ (p q : PreparedUpdateItem) (e : SdkErrorM), p.table = q.table →
      update_error_for fparse e (some p.table) = update_error_for fparse e (some q.table)) := by
  refine ⟨?_, ?_, ?_, ?_⟩
  · intro message display payload table
    cases payload with
    | none =>
      show (map_dynamodb_code (some "ConditionalCheckFailedException")
        message display table : RaisedErr flt).kind = _
      rw [map_dynamodb_code_ccf]
    | some item =>
      have hstep : update_error_for fparse
          (.serviceError (some "ConditionalCheckFailedException") message display (some item))
          table =
          (match avKvsToPy fparse item with
            | .ok py_item =>
              (⟨.conditionalCheckFailed, "The condition expression evaluated to false",
                some py_item⟩ : RaisedErr flt)
            | .error _ =>
              map_sdk_error
                (.serviceError (some "ConditionalCheckFailedException") message display
                  (some item)) table) := rfl
      rw [hstep]
      cases hdec : avKvsToPy fparse item with
      | ok d => rfl
      | error e2 =>
        show (map_dynamodb_code (some "ConditionalCheckFailedException")
          message display table : RaisedErr flt).kind = _
        rw [map_dynamodb_code_ccf]
  · intro message display item d table hdec
    have hstep : update_error_for fparse
        (.serviceError (some "ConditionalCheckFailedException") message display (some item))
        table =
        (match avKvsToPy fparse item with
          | .ok py_item =>
            (⟨.conditionalCheckFailed, "The condition expression evaluated to false",
              some py_item⟩ : RaisedErr flt)
          | .error _ =>
            map_sdk_error
              (.serviceError (some "ConditionalCheckFailedException") message display
                (some item)) table) := rfl
    rw [hstep, hdec]
  · intro message display item e2 table hdec
    have hstep : update_error_for fparse
        (.serviceError (some "ConditionalCheckFailedException") message display (some item))
        table =
        (match avKvsToPy fparse item with
          | .ok py_item =>
            (⟨.conditionalCheckFailed, "The condition expression evaluated to false",
              some py_item⟩ : RaisedErr flt)
          | .error _ =>
            map_sdk_error
              (.serviceError (some "ConditionalCheckFailedException") message display
                (some item)) table) := rfl
    rw [hstep, hdec]
    show (map_dynamodb_code (some "ConditionalCheckFailedException")
      message display table : RaisedErr flt).item = _
    rw [map_dynamodb_code_ccf]
  · intro p q e hpq
    rw [hpq]

/-- C9 counterexample: a conflicting item the backend supplies but
whose decoding fails is silently dropped at the fallback of
map_sdk_error_with_item: here the item holds a Number attribute whose
text is the decimal form of 2^63 -- a value this library's own encoder
produces -- so attribute_values_to_py_dict raises Invalid number, and
the raised ConditionalCheckFailedException carries no item even though
the payload contained one, contrary to the unconditional attachment
claim. -/
theorem claim9_counterexample :
    py_to_attribute_value_direct unitFloatStr (NV.int (2 ^ 63)) =
      .ok (.N (intDecText (2 ^ 63))) ∧
    (update_error_for unitFloatParse
      (.serviceError (some "ConditionalCheckFailedException") none ""
        (some [("n", AV.N (intDecText (2 ^ 63)))])) (some "orders")).item = none ∧
    (update_error_for unitFloatParse
      (.serviceError (some "ConditionalCheckFailedException") none ""
        (some [("n", AV.N (intDecText (2 ^ 63)))])) (some "orders")).kind =
      .conditionalCheckFailed :=
  ⟨rfl, rfl, rfl⟩

/-- C9 witness: at a concrete conflicting item the raised error is the
ConditionalCheckFailedException category with the decoded item
attached. -/
theorem claim9_witness :
    (update_error_for unitFloatParse
      (.serviceError (some "ConditionalCheckFailedException") none ""
        (some [("a", AV.S "x")])) (some "orders")).kind = .conditionalCheckFailed ∧
    (update_error_for unitFloatParse
      (.serviceError (some "ConditionalCheckFailedException") none ""
        (some [("a", AV.S "x")])) (some "orders")).item = some [("a", NV.str "x")] :=
  ⟨(claim9_condition_check_item unitFloatParse).1 none "" (some [("a", AV.S "x")])
      (some "orders"),
    (claim9_condition_check_item unitFloatParse).2.1 none "" [("a", AV.S "x")]
      [("a", NV.str "x")] (some "orders") rfl⟩


end Pydynox
